import Mathlib

/-!
# A verification development for dns-lookup-go

Shallow embedding of the DNSSEC authenticator, the stub client, the
transport layer and the iterative resolver of the `dns-lookup-go`
repository, together with theorems settling the frozen claims about it.

Conventions used throughout:
* Go machine integers that never overflow in the modelled paths are `Nat`;
  where Go's `uint8` wrap-around is observable (the iterative resolver's
  query counter) the embedding applies `% 256` explicitly.
* Fallible Go functions returning `(value, error)` become `Except String _`
  or `Option String` (an `Option String` result is the returned error,
  `none` meaning success), matching each call site of the source.
* Functions of the external `miekg/dns` wire library (key tags, DS digest
  derivation, cryptographic signature verification, record rendering) are
  parameters of the embedding, collected in `AuthEnv`: the repository calls
  them but does not define them.
* Go `map` iteration order is unspecified; the embedding uses association
  lists in insertion order.  Every theorem below is insensitive to that
  order.
-/

namespace DnsLookup

/-! ## Wire data model (from the miekg/dns record shapes the repo consumes) -/

/-- An RRSIG record: the fields of `dns.RRSIG` the repository reads. -/
structure RRSIG where
  name : String
  typeCovered : Nat
  algorithm : Nat
  labels : Nat
  inception : Nat
  expiration : Nat
  keyTag : Nat
  signerName : String
  signature : String
  deriving DecidableEq, Repr

/-- A DNSKEY record: the fields of `dns.DNSKEY` the repository reads. -/
structure DNSKEY where
  name : String
  flags : Nat
  algorithm : Nat
  publicKey : String
  deriving DecidableEq, Repr

/-- A DS record: the fields of `dns.DS` the repository reads. -/
structure DSRec where
  name : String
  keyTag : Nat
  algorithm : Nat
  digestType : Nat
  digest : String
  deriving DecidableEq, Repr

/-- A resource record: a closed sum of the concrete shapes the repository
matches on (`*dns.RRSIG`, `*dns.DNSKEY`, `*dns.DS`, `*dns.A`, `*dns.NS`),
with `generic` standing for every other concrete record type. -/
inductive RR where
  | rrsig (r : RRSIG)
  | dnskey (k : DNSKEY)
  | dsrec (d : DSRec)
  | a (name : String) (address : String)
  | ns (name : String) (target : String)
  | generic (name : String) (rrtype : Nat) (body : String)
  deriving DecidableEq, Repr

/-- `rr.Header().Name` of the source. -/
def RR.name : RR → String
  | .rrsig r => r.name
  | .dnskey k => k.name
  | .dsrec d => d.name
  | .a n _ => n
  | .ns n _ => n
  | .generic n _ _ => n

/-- `rr.Header().Rrtype` of the source (A = 1, NS = 2, DS = 43,
RRSIG = 46, DNSKEY = 48). -/
def RR.rrtype : RR → Nat
  | .rrsig _ => 46
  | .dnskey _ => 48
  | .dsrec _ => 43
  | .a _ _ => 1
  | .ns _ _ => 2
  | .generic _ t _ => t

/-- A question of a DNS message. -/
structure Question where
  name : String
  qtype : Nat
  deriving DecidableEq, Repr

/-- A DNS message: the fields of `dns.Msg` the repository reads. -/
structure Msg where
  question : List Question
  answer : List RR
  ns : List RR
  extra : List RR
  authoritative : Bool
  authenticatedData : Bool
  rcode : Nat
  deriving DecidableEq, Repr

/-- `msg.Question[0].Name`, with `""` for the (never-built) question-less
message, so the embedding stays total where Go would panic. -/
def Msg.qname (m : Msg) : String := ((m.question.headD ⟨"", 0⟩)).name

/-! ## Shared string helpers of the repository

These are written over `String.data` (plain `List Char` recursion) so that a
witness can evaluate them on concrete inputs by kernel reduction; they mirror
the Go standard-library calls the source makes. -/

/-- `strings.HasSuffix`: byte-wise suffix test. -/
def strEndsWith (s suffix : String) : Bool := suffix.data.isSuffixOf s.data

/-- `strings.TrimRight(domain, ".")`: strip every trailing dot. -/
def trimTrailingDots (s : String) : String :=
  ⟨(s.data.reverse.dropWhile (· = '.')).reverse⟩

/-- `strings.Split(domain, ".")` on the character level. -/
def splitDots : List Char → List (List Char)
  | [] => [[]]
  | c :: rest =>
    let r := splitDots rest
    if c = '.' then [] :: r
    else
      match r with
      | h :: t => (c :: h) :: t
      | [] => [[c]]

/-- `countLabels` of `trace_dnssec.go`: number of labels of a domain name,
ignoring trailing root dots. -/
def countLabels (domain : String) : Nat :=
  let domain := trimTrailingDots domain
  if domain = "" then 0 else (splitDots domain.data).length

/-- `tabsToSpaces`: `strings.ReplaceAll(s, "\t", " ")`. -/
def tabsToSpaces (s : String) : String :=
  ⟨s.data.map (fun c => if c = '\t' then ' ' else c)⟩

/-- ASCII lower-casing of one character, as a code point. -/
def charLowerNat (c : Char) : Nat :=
  if 65 ≤ c.toNat ∧ c.toNat ≤ 90 then c.toNat + 32 else c.toNat

/-- `strings.EqualFold` on the hex digest strings the repository compares:
case-insensitive equality (the digests are ASCII hex). -/
def eqFold (a b : String) : Bool :=
  a.data.map charLowerNat = b.data.map charLowerNat

/-- `strings.ToLower` on ASCII, used by the trace's delegation-signer entry. -/
def strToLower (s : String) : String :=
  ⟨s.data.map (fun c => if 65 ≤ c.toNat ∧ c.toNat ≤ 90 then Char.ofNat (c.toNat + 32) else c)⟩

end DnsLookup

namespace DnsLookup

/-! ## SignatureSet and newSignatureSets (trace_dnssec.go) -/

/-- `SignatureSet`: one RRSIG, its (eventually) matched DNSKEY, and the
records it covers.  The key is `Option` because Go leaves it nil until
`addKey` succeeds. -/
structure SignatureSet where
  key : Option DNSKEY
  signature : RRSIG
  records : List RR
  deriving DecidableEq, Repr

/-- `SignatureSet.addRR`: adds the record when its type matches the RRSIG's
covered type, its owner ends with the RRSIG's signer name, and its label
count matches; the Bool mirrors the Go return value. -/
def SignatureSet.addRR (ss : SignatureSet) (rr : RR) : SignatureSet × Bool :=
  if ss.signature.typeCovered ≠ rr.rrtype then (ss, false)
  else if ¬ (strEndsWith rr.name ss.signature.signerName) then (ss, false)
  else if ss.signature.labels ≠ countLabels rr.name then (ss, false)
  else ({ ss with records := ss.records ++ [rr] }, true)

/-- The Bool `addRR` returns depends only on the record and the set's RRSIG. -/
def rrMatchesSig (sig : RRSIG) (rr : RR) : Bool :=
  sig.typeCovered = rr.rrtype && strEndsWith rr.name sig.signerName
    && sig.labels = countLabels rr.name

/-- One pass of the inner loop of `newSignatureSets`: offer the record to
every set (Go: `assigned = signature.addRR(answer) || assigned`). -/
def offerToAll (sigs : List SignatureSet) (rr : RR) : List SignatureSet × Bool :=
  match sigs with
  | [] => ([], false)
  | s :: rest =>
    let p := s.addRR rr
    let q := offerToAll rest rr
    (p.1 :: q.1, p.2 || q.2)

/-- The error text of `newSignatureSets` when a record is adopted by no set.
`rrStr` stands for the external `answer.String()`. -/
def unassignedErr (rrStr : RR → String) (rr : RR) : String :=
  "[" ++ rrStr rr ++ "] was unable to be assigned to any RRSIG"

/-- The error text of `newSignatureSets` when the RRset holds no RRSIG. -/
def noRRSIGErr : String :=
  "no RRSIG records found. this might indicate that DNSSEC is not enabled for this domain, or that the nameserver used does not return RRSIG records"

/-- The outer loop of `newSignatureSets`: assign each non-RRSIG record,
failing on the first one no set adopts. -/
def assignAnswers (rrStr : RR → String) (sigs : List SignatureSet) :
    List RR → Except String (List SignatureSet)
  | [] => .ok sigs
  | rr :: rest =>
    let p := offerToAll sigs rr
    if p.2 then assignAnswers rrStr p.1 rest
    else .error (unassignedErr rrStr rr)

/-- Is this record an RRSIG? (Go: the `answer.(*dns.RRSIG)` type assertion.) -/
def RR.isRRSIG : RR → Bool
  | .rrsig _ => true
  | _ => false

/-- The RRSIG payloads of an RRset, in order. -/
def rrsigsOf (rrset : List RR) : List RRSIG :=
  rrset.filterMap (fun rr => match rr with | .rrsig s => some s | _ => none)

/-- `newSignatureSets` of `trace_dnssec.go`: one empty set per RRSIG, then
each non-RRSIG record is offered to every set. -/
def newSignatureSets (rrStr : RR → String) (rrset : List RR) :
    Except String (List SignatureSet) :=
  let answers := rrset.filter (fun rr => ¬ rr.isRRSIG)
  let signatures := (rrsigsOf rrset).map
    (fun s => ({ key := none, signature := s, records := [] } : SignatureSet))
  if signatures.length = 0 then .error noRRSIGErr
  else assignAnswers rrStr signatures answers

end DnsLookup

namespace DnsLookup

/-- A small concrete RRset fixture: one A-type record covered by one RRSIG. -/
def rrsigW : RRSIG :=
  { name := "test.example.com.", typeCovered := 1, algorithm := 8, labels := 3,
    inception := 0, expiration := 100, keyTag := 256,
    signerName := "example.com.", signature := "sigbytes" }

/-- The concrete covered record of the fixture. -/
def aW : RR := .generic "test.example.com." 1 "1.1.1.1"

/-- The fixture RRset. -/
def rrsetW : List RR := [aW, .rrsig rrsigW]

/-- The partition `newSignatureSets` produces on the fixture. -/
def setsW : List SignatureSet := [{ key := none, signature := rrsigW, records := [aW] }]

end DnsLookup

namespace DnsLookup

/-! ## The DNSSEC authenticator (trace_dnssec.go)

The authenticator's external collaborators are collected in `AuthEnv`:
the wire library's key-tag computation, DS derivation, cryptographic
signature verification and record rendering, the wall clock, the injected
query interface (`Resolver.query`), the configured root anchors and the
maximum authentication depth.  `cryptoVerify` returns the error of
`dns.RRSIG.Verify`, `none` meaning the signature verified. -/

/-- `DNSKEY_ZSK`: Zone Signing Key flag value. -/
def DNSKEY_ZSK : Nat := 256

/-- `DNSKEY_KSK`: Key Signing Key flag value. -/
def DNSKEY_KSK : Nat := 257

/-- `dns.TypeDS`. -/
def TypeDS : Nat := 43

/-- `dns.TypeDNSKEY`. -/
def TypeDNSKEY : Nat := 48

/-- The external collaborators of the authenticator. -/
structure AuthEnv where
  keyTagF : DNSKEY → Nat
  toDS : DNSKEY → Nat → DSRec
  cryptoVerify : RRSIG → Option DNSKEY → List RR → Option String
  sigStr : RRSIG → String
  rrStr : RR → String
  now : Nat
  query : String → Nat → Except String Msg
  rootAnchors : List DSRec
  maxAuthenticationDepth : Nat

/-- Modelled from the spec: `dns.RRSIG.ValidityPeriod(now)` is part of the
external wire library; per the spec the check is that the current wall clock
lies within `[inception, expiration]`. -/
def validityPeriod (sig : RRSIG) (now : Nat) : Bool :=
  sig.inception ≤ now && now ≤ sig.expiration

/-- `SignatureSet.verify`: the validity-window check, then the cryptographic
verification of the RRSIG over the covered records with the chosen key. -/
def SignatureSet.verify (env : AuthEnv) (ss : SignatureSet) : Option String :=
  if ¬ validityPeriod ss.signature env.now then
    some "signature outside of the allowed inception or expiration range"
  else env.cryptoVerify ss.signature ss.key ss.records

/-- `SignatureSet.addKey`: associates the DNSKEY when its flags equal the
requested key type and its key tag equals the RRSIG's key tag. -/
def SignatureSet.addKey (ss : SignatureSet) (env : AuthEnv) (key : DNSKEY)
    (keyType : Nat) : SignatureSet × Bool :=
  let tag := env.keyTagF key
  if key.flags = keyType ∧ ss.signature.keyTag = tag then
    ({ ss with key := some key }, true)
  else (ss, false)

/-- The Go loop `for _, key := range keys { if ss.addKey(key, t) { break } }`:
the first matching key is installed. -/
def addFirstKey (env : AuthEnv) (ss : SignatureSet) (keyType : Nat) :
    List DNSKEY → SignatureSet
  | [] => ss
  | k :: rest =>
    let p := ss.addKey env k keyType
    if p.2 then p.1 else addFirstKey env p.1 keyType rest

/-- `extractRecordsOfType[*dns.DNSKEY]`. -/
def extractDNSKEYs (rrset : List RR) : List DNSKEY :=
  rrset.filterMap (fun rr => match rr with | .dnskey k => some k | _ => none)

/-- `extractRecordsOfType[*dns.DS]`. -/
def extractDSs (rrset : List RR) : List DSRec :=
  rrset.filterMap (fun rr => match rr with | .dsrec d => some d | _ => none)

/-- A signature set whose key lookup and verification succeeded: Go returns
`[]*SignatureSet` whose `key` field is guaranteed non-nil, which the
embedding makes structural. -/
structure VerifiedSet where
  key : DNSKEY
  signature : RRSIG
  records : List RR
  deriving DecidableEq, Repr

/-- A trace record of the authenticator (`AuthenticationTrace`), carrying
the fields the claims mention. -/
inductive TraceRec where
  | lookup (domain : String) (rrtype : Nat) (nameserver : String) (answers : List String)
  | sigValidation (depth : Nat) (keyType : String) (domain : String) (zone : String)
      (err : Option String)
  | dsCheck (depth : Nat) (child : String) (parent : String) (hash : String)
  deriving DecidableEq, Repr

/-- The KSK inner loop of `authenticateZoneSigningKey`: for each signature
set of the DNSKEY response, install the first matching KSK, verify, trace,
and collect.  The trace writes model an installed trace sink. -/
def processKss (env : AuthEnv) (msg : Msg) (depth : Nat) (keys : List DNSKEY) :
    List SignatureSet → List VerifiedSet → List TraceRec →
    Except String (List VerifiedSet) × List TraceRec
  | [], acc, tr => (.ok acc, tr)
  | kss :: rest, acc, tr =>
    let kss := addFirstKey env kss DNSKEY_KSK keys
    match kss.key with
    | none =>
      (.error (tabsToSpaces (env.sigStr kss.signature) ++ " does not have a matching key"), tr)
    | some k =>
      let err := kss.verify env
      let tr := tr ++ [TraceRec.sigValidation depth "ksk" msg.qname kss.signature.signerName err]
      match err with
      | some e =>
        (.error ("unable to verify " ++ tabsToSpaces (env.sigStr kss.signature)
          ++ "; received " ++ e), tr)
      | none =>
        processKss env msg depth keys rest
          (acc ++ [{ key := k, signature := kss.signature, records := kss.records }]) tr

/-- The ZSK outer loop of `authenticateZoneSigningKey`: for each signature
set of the answer, fetch DNSKEYs for the signer, install the first matching
ZSK, verify, trace, then partition the DNSKEY response and run the KSK
loop. -/
def processZss (env : AuthEnv) (msg : Msg) (depth : Nat) :
    List SignatureSet → List VerifiedSet → List TraceRec →
    Except String (List VerifiedSet) × List TraceRec
  | [], acc, tr => (.ok acc, tr)
  | zss :: rest, acc, tr =>
    match env.query zss.signature.signerName TypeDNSKEY with
    | .error e => (.error e, tr)
    | .ok keysMsg =>
      let keys := extractDNSKEYs keysMsg.answer
      let zss := addFirstKey env zss DNSKEY_ZSK keys
      match zss.key with
      | none => (.error (env.sigStr zss.signature ++ " does not have a matching key"), tr)
      | some _ =>
        let err := zss.verify env
        let tr := tr ++ [TraceRec.sigValidation depth "zsk" msg.qname zss.signature.signerName err]
        match err with
        | some e =>
          (.error ("unable to verify " ++ env.sigStr zss.signature ++ "; received " ++ e), tr)
        | none =>
          match newSignatureSets env.rrStr keysMsg.answer with
          | .error e => (.error e, tr)
          | .ok keysSignatureSets =>
            match processKss env msg depth keys keysSignatureSets acc tr with
            | (.error e, tr) => (.error e, tr)
            | (.ok acc, tr) => processZss env msg depth rest acc tr

/-- `Resolver.authenticateZoneSigningKey`.  The depth always reaches the
embedding explicitly, so the source's `missing depth from context` branch
cannot arise here. -/
def authenticateZoneSigningKey (env : AuthEnv) (msg : Msg) (depth : Nat) :
    Except String (List VerifiedSet) × List TraceRec :=
  match newSignatureSets env.rrStr msg.answer with
  | .error e => (.error e, [])
  | .ok zoneSignatureSets => processZss env msg depth zoneSignatureSets [] []

/-- The DS comparison of the chain step: key tag, algorithm, and
case-insensitive digest equality (`strings.EqualFold`). -/
def dsMatch (answer keyDS : DSRec) : Bool :=
  answer.keyTag = keyDS.keyTag && answer.algorithm = keyDS.algorithm
    && eqFold answer.digest keyDS.digest

/-- The anchor / parent-DS search loop: for each DS answer, derive the KSK's
DS under that answer's digest algorithm and compare; first match returns the
pair (the DS record, the derived DS). -/
def findAnchorMatch (env : AuthEnv) (k : DNSKEY) : List DSRec → Option (DSRec × DSRec)
  | [] => none
  | answer :: rest =>
    let keyDS := env.toDS k answer.digestType
    if dsMatch answer keyDS then some (answer, keyDS) else findAnchorMatch env k rest

/-- The body of `Resolver.Authenticate` after the nil check, written with a
`gas` argument for structural recursion: the source checks
`depth >= maxAuthenticationDepth` at entry and recurses at `depth+1`, so
`gas = maxAuthenticationDepth - depth` holds at every call and `gas = 0`
is exactly the depth-cap error.  Every branch of the source's
`for _, kss := range keySignatureSets` loop returns, so only the first
element is ever examined and an empty list falls through to the
`no signature sets found` error. -/
def authGo (env : AuthEnv) : Nat → Msg → Nat → Except String Unit × List TraceRec
  | 0, _, _ =>
    (.error ("maximum authentication depth of "
      ++ toString env.maxAuthenticationDepth ++ " reached"), [])
  | gas + 1, msg, depth =>
    match authenticateZoneSigningKey env msg depth with
    | (.error e, tr) => (.error e, tr)
    | (.ok keySignatureSets, tr) =>
      match keySignatureSets with
      | [] => (.error "no signature sets found, unable to validate", tr)
      | kss :: _ =>
        if kss.signature.signerName = "." then
          match findAnchorMatch env kss.key env.rootAnchors with
          | some p =>
            (.ok (), tr ++ [TraceRec.dsCheck depth msg.qname kss.signature.signerName
              (strToLower p.2.digest)])
          | none => (.error "unable to find a matching DS digest at the root", tr)
        else
          match env.query kss.signature.signerName TypeDS with
          | .error e => (.error e, tr)
          | .ok dsMsg =>
            match findAnchorMatch env kss.key (extractDSs dsMsg.answer) with
            | some p =>
              let r := authGo env gas dsMsg (depth + 1)
              (r.1, tr ++ [TraceRec.dsCheck depth msg.qname kss.signature.signerName
                (strToLower p.2.digest)] ++ r.2)
            | none => (.error "unable to find a matching DS digest at the parent", tr)

/-- `Resolver.Authenticate` on a non-nil message at a given depth. -/
def authenticateAux (env : AuthEnv) (msg : Msg) (depth : Nat) :
    Except String Unit × List TraceRec :=
  authGo env (env.maxAuthenticationDepth - depth) msg depth

/-- `Resolver.Authenticate`: the nil-message check, then the recursive
authentication starting at depth 0. -/
def Authenticate (env : AuthEnv) (msg : Option Msg) :
    Except String Unit × List TraceRec :=
  match msg with
  | none => (.error "no DNS message provided", [])
  | some m => authenticateAux env m 0

end DnsLookup

namespace DnsLookup

/-! ## Counting delegation-signer trace entries (for the depth bound) -/

/-- Is this trace record a delegation-signer check?  Exactly one is written
per parent step (and one at the root step). -/
def isDsCheck : TraceRec → Bool
  | .dsCheck _ _ _ _ => true
  | _ => false

/-- The number of delegation-signer-check entries in a trace. -/
def countDsChecks (tr : List TraceRec) : Nat := tr.countP isDsCheck

/-! ## The verified chain a successful authentication exhibits (for C1) -/

/-- A finite chain of verified (ZSK, KSK) signature-set pairs from a
message's zone up through ancestors: each step is a successful
`authenticateZoneSigningKey` run; a `parent` step matches the KSK's DS,
derived under the digest algorithm of a DS fetched from the parent zone,
against it and continues on the DS response at depth + 1; the chain
terminates at a `root` step whose KSK's DS, derived under the digest
algorithm of some configured root anchor, equals that anchor on key tag,
algorithm and case-insensitive digest. -/
inductive AuthChain (env : AuthEnv) : Msg → Nat → Prop where
  | root (msg : Msg) (depth : Nat) (kss : VerifiedSet) (rest : List VerifiedSet)
      (tr : List TraceRec) (anchor : DSRec) :
      authenticateZoneSigningKey env msg depth = (.ok (kss :: rest), tr) →
      kss.signature.signerName = "." →
      anchor ∈ env.rootAnchors →
      dsMatch anchor (env.toDS kss.key anchor.digestType) = true →
      AuthChain env msg depth
  | parent (msg : Msg) (depth : Nat) (kss : VerifiedSet) (rest : List VerifiedSet)
      (tr : List TraceRec) (dsMsg : Msg) (ds : DSRec) :
      authenticateZoneSigningKey env msg depth = (.ok (kss :: rest), tr) →
      kss.signature.signerName ≠ "." →
      env.query kss.signature.signerName TypeDS = .ok dsMsg →
      ds ∈ extractDSs dsMsg.answer →
      dsMatch ds (env.toDS kss.key ds.digestType) = true →
      AuthChain env dsMsg (depth + 1) →
      AuthChain env msg depth

/-! ## The stub client (Resolver of the resolver package) -/

/-- The stub client's state and configuration.  Nameservers are identified
by their connection strings; logging is outside the embedding. -/
structure Resolver where
  nameservers : List String
  RootDNSSECRecords : List DSRec
  LocallyAuthenticateData : Bool
  RemotelyAuthenticateData : Bool
  RandomNameserver : Bool
  maxAuthenticationDepth : Nat
  EnableTrace : Bool
  deriving Repr

/-- `NewResolver`: the stub-mode defaults.  The embedded IANA root anchors
(`anchors.GetAllFromEmbedded()`) are external data, passed in. -/
def NewResolver (embedded : List DSRec) (nameservers : List String) : Resolver :=
  { nameservers := nameservers
    RootDNSSECRecords := embedded
    LocallyAuthenticateData := true
    RemotelyAuthenticateData := true
    RandomNameserver := true
    maxAuthenticationDepth := 10
    EnableTrace := false }

/-- Modelled from the spec: the iterative-resolver-backed authenticator
constructor is not among the staged sources; per the spec its default
maximum authentication depth is 3. -/
def iterativeAuthenticatorDefaultMaxAuthenticationDepth : Nat := 3

/-- One swap of `rand.Shuffle`'s Fisher–Yates loop: exchange positions
`i` and `j` (no-op on out-of-range indices, which the loop never produces). -/
def swapIdx (l : List α) (i j : Nat) : List α :=
  match l[i]?, l[j]? with
  | some a, some b => (l.set i b).set j a
  | _, _ => l

/-- `rand.Shuffle`'s loop `for i := n - 1; i > 0; i--`: swap position `i`
with position `jf i`, where `jf i` models the PRNG draw from `[0, i]`. -/
def shuffleGo (jf : Nat → Nat) : List α → Nat → List α
  | l, 0 => l
  | l, i + 1 => shuffleGo jf (swapIdx l (i + 1) (jf (i + 1))) i

/-- `rand.Shuffle(len(l), swap)` under the draw sequence `jf`. -/
def randShuffle (jf : Nat → Nat) (l : List α) : List α :=
  shuffleGo jf l (l.length - 1)

/-- `Resolver.getNameservers`: when randomisation is on and more than one
nameserver is configured, the client's own slice is shuffled in place; the
updated client is returned alongside the list. -/
def Resolver.getNameservers (d : Resolver) (jf : Nat → Nat) : List String × Resolver :=
  if d.RandomNameserver ∧ d.nameservers.length > 1 then
    let shuffled := randShuffle jf d.nameservers
    (shuffled, { d with nameservers := shuffled })
  else (d.nameservers, d)

/-- The nameserver loop of `Resolver.query`: try each nameserver once; a
transport error moves to the next; a reply without the AD flag while
`RemotelyAuthenticateData` is set fails the resolution. -/
def tryStubNameservers (d : Resolver) (nsQuery : String → String → Nat → Except String Msg)
    (name : String) (rrtype : Nat) : List String → Except String Msg × List TraceRec
  | [] => (.error "no answer found on any configured nameserver", [])
  | ns :: rest =>
    match nsQuery ns name rrtype with
    | .error _ => tryStubNameservers d nsQuery name rrtype rest
    | .ok result =>
      if d.RemotelyAuthenticateData ∧ ¬ result.authenticatedData then
        (.error "resolver dnssec authentication failed", [])
      else
        (.ok result, [TraceRec.lookup name rrtype ns []])

/-- `Resolver.query` of the resolver package: obtain the (possibly shuffled)
nameserver list, then try each nameserver. -/
def Resolver.query (d : Resolver) (jf : Nat → Nat)
    (nsQuery : String → String → Nat → Except String Msg)
    (name : String) (rrtype : Nat) : Except String Msg × List TraceRec × Resolver :=
  let p := d.getNameservers jf
  if p.1.length < 1 then (.error "no nameservers set", [], p.2)
  else
    let q := tryStubNameservers d nsQuery name rrtype p.1
    (q.1, q.2, p.2)

/-- `Resolver.Query`: the stub query, then local authentication when
configured.  The authenticator's collaborators arrive through `env` as in
`Authenticate`. -/
def Resolver.Query (d : Resolver) (jf : Nat → Nat)
    (nsQuery : String → String → Nat → Except String Msg) (env : AuthEnv)
    (name : String) (rrtype : Nat) : Except String Msg × List TraceRec × Resolver :=
  match d.query jf nsQuery name rrtype with
  | (.error e, tr, d1) => (.error e, tr, d1)
  | (.ok msg, tr, d1) =>
    if d.LocallyAuthenticateData then
      let a := Authenticate env (some msg)
      match a.1 with
      | .error e => (.error e, tr ++ a.2, d1)
      | .ok _ => (.ok msg, tr ++ a.2, d1)
    else (.ok msg, tr, d1)

/-! ## The transport (LookupNameserver) -/

/-- A transport endpoint: protocol, TLS SNI domain, address and port. -/
structure LookupNameserver where
  protocol : String
  domain : String
  address : String
  port : String
  deriving DecidableEq, Repr

/-- `isIPv6`: at least two colons in the address. -/
def LookupNameserver.isIPv6 (n : LookupNameserver) : Bool :=
  (n.address.data.filter (· = ':')).length ≥ 2

/-- `getAddress`: brackets an IPv6 literal. -/
def LookupNameserver.getAddress (n : LookupNameserver) : String :=
  if n.isIPv6 then "[" ++ n.address ++ "]" else n.address

/-- `getConnectionString`: `address:port`. -/
def LookupNameserver.getConnectionString (n : LookupNameserver) : String :=
  n.getAddress ++ ":" ++ n.port

/-- `dns.Fqdn`: ensure one trailing dot (external wire library; modelled
from its documented behaviour of appending a dot when absent). -/
def fqdn (name : String) : String :=
  if strEndsWith name "." then name else name ++ "."

/-- The query message `LookupNameserver.Query` constructs: question owner
lowercased... the embedding records the question; EDNS0 size and the RD/DO
bits are transport details outside the claims. -/
def buildQueryMsg (name : String) (rrtype : Nat) : Msg :=
  { question := [{ name := fqdn name, qtype := rrtype }]
    answer := [], ns := [], extra := []
    authoritative := false, authenticatedData := false, rcode := 0 }

/-- `LookupNameserver.Query`: exchange the query; propagate exchange errors
(the caller only reads the error in that case); a reply whose RCODE is not
NOERROR is returned together with a `query error returned (rcode N)` error. -/
def LookupNameserver.Query (n : LookupNameserver)
    (exchange : Msg → String → Except String Msg)
    (name : String) (rrtype : Nat) : Option Msg × Option String :=
  match exchange (buildQueryMsg name rrtype) n.getConnectionString with
  | .error e => (none, some e)
  | .ok response =>
    if response.rcode ≠ 0 then
      (some response, some ("query error returned (rcode " ++ toString response.rcode ++ ")"))
    else (some response, none)

end DnsLookup

namespace DnsLookup

/-! ## A concrete root-signed fixture for the authenticator witnesses -/

/-- The fixture's root-zone ZSK. -/
def zskRootW : DNSKEY := { name := ".", flags := 256, algorithm := 8, publicKey := "zskpub" }

/-- The fixture's root-zone KSK. -/
def kskRootW : DNSKEY := { name := ".", flags := 257, algorithm := 8, publicKey := "kskpub" }

/-- The fixture RRSIG over the A record, signed by the root ZSK. -/
def rrsigARootW : RRSIG :=
  { name := "test.", typeCovered := 1, algorithm := 8, labels := 1,
    inception := 0, expiration := 100, keyTag := 256, signerName := ".",
    signature := "sA" }

/-- The fixture RRSIG over the root DNSKEY RRset, signed by the root KSK. -/
def rrsigKRootW : RRSIG :=
  { name := ".", typeCovered := 48, algorithm := 8, labels := 0,
    inception := 0, expiration := 100, keyTag := 257, signerName := ".",
    signature := "sK" }

/-- The fixture answer message: one A record and its RRSIG. -/
def msgW : Msg :=
  { question := [{ name := "test.", qtype := 1 }]
    answer := [.a "test." "1.2.3.4", .rrsig rrsigARootW]
    ns := [], extra := [], authoritative := true, authenticatedData := false, rcode := 0 }

/-- The fixture DNSKEY response for the root zone. -/
def keysMsgW : Msg :=
  { question := [{ name := ".", qtype := 48 }]
    answer := [.dnskey zskRootW, .dnskey kskRootW, .rrsig rrsigKRootW]
    ns := [], extra := [], authoritative := true, authenticatedData := false, rcode := 0 }

/-- The fixture root anchor, digest spelled in upper-case hex. -/
def anchorW : DSRec :=
  { name := ".", keyTag := 257, algorithm := 8, digestType := 2, digest := "ABCDEF" }

/-- The fixture environment: key tags are read off the flags field, DS
digests are a fixed lower-case string, cryptographic verification always
succeeds, and the query interface serves the root DNSKEY response. -/
def envW : AuthEnv :=
  { keyTagF := fun k => k.flags
    toDS := fun k dt =>
      { name := k.name, keyTag := k.flags, algorithm := k.algorithm,
        digestType := dt, digest := "abcdef" }
    cryptoVerify := fun _ _ _ => none
    sigStr := fun sig => sig.signature
    rrStr := fun _ => "rr"
    now := 50
    query := fun name rrtype =>
      if name = "." ∧ rrtype = TypeDNSKEY then .ok keysMsgW else .error "unexpected query"
    rootAnchors := [anchorW]
    maxAuthenticationDepth := 10 }

/-- The verified KSK set the fixture produces. -/
def vkskW : VerifiedSet :=
  { key := kskRootW, signature := rrsigKRootW,
    records := [.dnskey zskRootW, .dnskey kskRootW] }

/-- The trace `authenticateZoneSigningKey` writes on the fixture. -/
def azskTrW : List TraceRec :=
  [.sigValidation 0 "zsk" "test." "." none, .sigValidation 0 "ksk" "test." "." none]

end DnsLookup

namespace DnsLookup

/-- The fixture environment with the clock moved past every fixture
signature's expiration. -/
def envExpW : AuthEnv := { envW with now := 200 }

/-- The fixture's ZSK-step signature set before key assignment. -/
def zssExpW : SignatureSet :=
  { key := none, signature := rrsigARootW, records := [.a "test." "1.2.3.4"] }

end DnsLookup

namespace DnsLookup

/-! ## A concrete parent-step fixture (zone `com.`) -/

/-- The fixture's `com.` ZSK. -/
def zskComW : DNSKEY := { name := "com.", flags := 256, algorithm := 8, publicKey := "czsk" }

/-- The fixture's `com.` KSK. -/
def kskComW : DNSKEY := { name := "com.", flags := 257, algorithm := 8, publicKey := "cksk" }

/-- RRSIG over `x.com.`'s A record, signed by `com.`'s ZSK. -/
def rrsigAComW : RRSIG :=
  { name := "x.com.", typeCovered := 1, algorithm := 8, labels := 2,
    inception := 0, expiration := 100, keyTag := 256, signerName := "com.",
    signature := "csA" }

/-- RRSIG over `com.`'s DNSKEY RRset, signed by `com.`'s KSK. -/
def rrsigKComW : RRSIG :=
  { name := "com.", typeCovered := 48, algorithm := 8, labels := 1,
    inception := 0, expiration := 100, keyTag := 257, signerName := "com.",
    signature := "csK" }

/-- The `com.`-signed answer message. -/
def msg2W : Msg :=
  { question := [{ name := "x.com.", qtype := 1 }]
    answer := [.a "x.com." "1.1.1.1", .rrsig rrsigAComW]
    ns := [], extra := [], authoritative := true, authenticatedData := false, rcode := 0 }

/-- The DNSKEY response for `com.`. -/
def keysMsg2W : Msg :=
  { question := [{ name := "com.", qtype := 48 }]
    answer := [.dnskey zskComW, .dnskey kskComW, .rrsig rrsigKComW]
    ns := [], extra := [], authoritative := true, authenticatedData := false, rcode := 0 }

/-- The DS record for `com.` published at the parent. -/
def dsComW : DSRec :=
  { name := "com.", keyTag := 257, algorithm := 8, digestType := 2, digest := "abcdef" }

/-- The DS response for `com.` (unsigned here: the parent-step equation does
not depend on the recursive call's outcome). -/
def dsMsg2W : Msg :=
  { question := [{ name := "com.", qtype := 43 }]
    answer := [.dsrec dsComW]
    ns := [], extra := [], authoritative := true, authenticatedData := false, rcode := 0 }

/-- Environment serving the `com.` fixture. -/
def envPW : AuthEnv :=
  { envW with
    query := fun name rrtype =>
      if name = "com." ∧ rrtype = TypeDNSKEY then .ok keysMsg2W
      else if name = "com." ∧ rrtype = TypeDS then .ok dsMsg2W
      else .error "unexpected query" }

/-- The trace `authenticateZoneSigningKey` writes on the `com.` fixture. -/
def azsk2TrW : List TraceRec :=
  [.sigValidation 0 "zsk" "x.com." "com." none, .sigValidation 0 "ksk" "x.com." "com." none]

/-- The verified KSK set of the `com.` fixture. -/
def vksk2W : VerifiedSet :=
  { key := kskComW, signature := rrsigKComW,
    records := [.dnskey zskComW, .dnskey kskComW] }

end DnsLookup

namespace DnsLookup

/-- A root anchor whose key tag matches no fixture key. -/
def anchorBadW : DSRec :=
  { name := ".", keyTag := 999, algorithm := 8, digestType := 2, digest := "ABCDEF" }

/-- The fixture environment with only the mismatching anchor configured. -/
def envBadW : AuthEnv := { envW with rootAnchors := [anchorBadW] }

end DnsLookup

namespace DnsLookup

/-! ## Fixtures for the stub-client shuffle (C7) -/

/-- A two-nameserver stub client with the constructor defaults
(randomise-order on). -/
def dW : Resolver := NewResolver [] ["ns1", "ns2"]

/-- A reply with the AD flag set and no answers. -/
def adMsgW : Msg :=
  { question := [{ name := "x.", qtype := 1 }], answer := [], ns := [], extra := []
    authoritative := false, authenticatedData := true, rcode := 0 }

/-- A nameserver oracle answering every query with `adMsgW`. -/
def nsQueryW : String → String → Nat → Except String Msg := fun _ _ _ => .ok adMsgW

end DnsLookup

namespace DnsLookup

/-! ## Fixtures for the transport (C8) -/

/-- A plain UDP endpoint. -/
def nW : LookupNameserver := { protocol := "udp", domain := "", address := "8.8.8.8", port := "53" }

/-- A reply with RCODE 3 (NXDOMAIN). -/
def rcode3MsgW : Msg :=
  { question := [{ name := "a.", qtype := 1 }], answer := [], ns := [], extra := []
    authoritative := false, authenticatedData := false, rcode := 3 }

/-- An exchange returning the RCODE-3 reply. -/
def exW3 : Msg → String → Except String Msg := fun _ _ => .ok rcode3MsgW

/-- An exchange returning a NOERROR reply. -/
def exW0 : Msg → String → Except String Msg := fun _ _ => .ok adMsgW

end DnsLookup

namespace DnsLookup

/-! ## The iterative resolver (nameserver_recursive.go)

State is passed explicitly: the zone tree (Go's pointer graph) is a tree
value addressed by paths of child-zone names from the root, and the shared
`*queryCount` pointer is a counter field.  `calls` is a ghost field counting
transport invocations (the counter itself wraps as Go's `uint8`).  Go map
iteration is modelled in insertion order and loops read a snapshot of the
map taken when the loop starts; the claims proved below do not depend on
either choice. -/

/-- Hard versus soft resolver errors (`HardError` and plain errors);
`errors.As(err, &hardError)` is `isHard`. -/
inductive RErr where
  | hard (s : String)
  | soft (s : String)
  deriving DecidableEq, Repr

/-- The hardness test of the delegation walk. -/
def RErr.isHard : RErr → Bool
  | .hard _ => true
  | .soft _ => false

/-- A resolver outcome: an answer, an error, exhausted embedding fuel
(never produced by runs the theorems consider), or a Go runtime panic
(the `msg.Answer[0].(*dns.A)` type assertion). -/
inductive QRes where
  | ok (msg : Msg)
  | err (e : RErr)
  | fuelOut
  | panicked (s : String)
  deriving DecidableEq, Repr

/-- `NewUdpNameserver`, identified by its connection string. -/
def NewUdpNameserver (address port : String) : String :=
  "udp://" ++ address ++ ":" ++ port

/-- A zone node: hostname → optional endpoint (`nil` = known NS name whose
address is not yet resolved), and the child zones.  The parent pointer of
the source is the path structure here. -/
inductive Zone where
  | mk (nsA : List (String × Option String)) (children : List (String × Zone))

/-- The nameserver map of a zone. -/
def Zone.nsA : Zone → List (String × Option String)
  | .mk n _ => n

/-- The children map of a zone. -/
def Zone.children : Zone → List (String × Zone)
  | .mk _ c => c

/-- Association-list lookup (a Go map read). -/
def alGet : List (String × β) → String → Option β
  | [], _ => none
  | (k, v) :: rest, key => if k = key then some v else alGet rest key

/-- Association-list membership (a Go `_, ok :=` map read). -/
def alContains (l : List (String × β)) (key : String) : Bool :=
  (alGet l key).isSome

/-- Association-list write (a Go map write: update in place or append). -/
def alSet : List (String × β) → String → β → List (String × β)
  | [], key, v => [(key, v)]
  | (k, v0) :: rest, key, v =>
    if k = key then (key, v) :: rest else (k, v0) :: alSet rest key v

/-- Fetch the zone at a path from the root. -/
def Zone.getAt : Zone → List String → Option Zone
  | z, [] => some z
  | z, name :: rest =>
    match alGet z.children name with
    | some c => c.getAt rest
    | none => none

/-- Update the zone at a path from the root (no-op on a dangling path,
which the walk never produces). -/
def Zone.modifyAt : Zone → List String → (Zone → Zone) → Zone
  | z, [], f => f z
  | z, name :: rest, f =>
    match alGet z.children name with
    | some c => Zone.mk z.nsA (alSet z.children name (c.modifyAt rest f))
    | none => z

/-- One `RecursiveQueryTrace` lookup entry. -/
structure RecTraceLookup where
  depth : Nat
  domain : String
  rrtype : Nat
  hostname : String
  nameserver : String
  deriving DecidableEq, Repr

/-- The threaded state of one top-level resolution. -/
structure RState where
  root : Zone
  count : Nat
  calls : Nat
  trace : List RecTraceLookup

/-- The resolver's collaborators: the transport (`NameServer.Query` keyed by
the endpoint string), the query budget, and the glue endpoint factory. -/
structure RecEnv where
  oracle : String → String → Nat → Except RErr Msg
  maxQueryCount : Nat
  factory : String → String → String

/-- The budget-exhaustion error text: the source interpolates the counter
value itself (`*queryCount`), typo included. -/
def budgetErrText (count : Nat) : String :=
  "max allowed query count of " ++ toString count ++ " reached. somthing has likely gone wrong"

/-- Loop 1 of `zoneResolver.query`: try every nameserver whose endpoint is
known; an answered reply returns, a hard error returns, anything else moves
on.  `none` means the loop fell through. -/
def tryKnownLoop (qns : String → String → RState → QRes × RState) :
    List (String × Option String) → RState → Option QRes × RState
  | [], st => (none, st)
  | (hostname, optNs) :: rest, st =>
    match optNs with
    | none => tryKnownLoop qns rest st
    | some ns =>
      let p := qns hostname ns st
      match p.1 with
      | .ok msg =>
        if msg.answer.length > 0 then (some (.ok msg), p.2) else tryKnownLoop qns rest p.2
      | .err e => if e.isHard then (some (.err e), p.2) else tryKnownLoop qns rest p.2
      | .fuelOut => (some .fuelOut, p.2)
      | .panicked s => (some (.panicked s), p.2)

/-- Loop 2 of `zoneResolver.query`: resolve each unknown endpoint through
the root (an A query), record the first address as a UDP endpoint, then
query it; hard errors return, soft errors move on.  A non-A first answer is
Go's panicking type assertion. -/
def tryUnknownLoop (rootQ : String → RState → QRes × RState)
    (qns : String → String → RState → QRes × RState)
    (setNs : String → String → RState → RState) :
    List (String × Option String) → RState → Option QRes × RState
  | [], st => (none, st)
  | (hostname, optNs) :: rest, st =>
    match optNs with
    | some _ => tryUnknownLoop rootQ qns setNs rest st
    | none =>
      let p := rootQ hostname st
      match p.1 with
      | .fuelOut => (some .fuelOut, p.2)
      | .panicked s => (some (.panicked s), p.2)
      | .err e =>
        if e.isHard then (some (.err e), p.2) else tryUnknownLoop rootQ qns setNs rest p.2
      | .ok msg =>
        if msg.answer.length = 0 then tryUnknownLoop rootQ qns setNs rest p.2
        else
          match msg.answer.head? with
          | some (RR.a _ addr) =>
            let ns := NewUdpNameserver addr "53"
            let st1 := setNs hostname ns p.2
            let q := qns hostname ns st1
            match q.1 with
            | .ok m2 =>
              if m2.answer.length > 0 then (some (.ok m2), q.2)
              else tryUnknownLoop rootQ qns setNs rest q.2
            | .err e =>
              if e.isHard then (some (.err e), q.2) else tryUnknownLoop rootQ qns setNs rest q.2
            | .fuelOut => (some .fuelOut, q.2)
            | .panicked s => (some (.panicked s), q.2)
          | _ => (some (.panicked "interface conversion: msg.Answer[0] is not *dns.A"), p.2)

/-- The child-zone loop at the end of `queryNameserver`: recurse into every
child whose name suffixes the queried name; answers and hard errors return,
everything else moves on. -/
def childLoop (cq : String → RState → QRes × RState) (name : String) :
    List (String × Zone) → RState → Option QRes × RState
  | [], st => (none, st)
  | (childName, _) :: rest, st =>
    if strEndsWith name childName then
      let p := cq childName st
      match p.1 with
      | .ok msg =>
        if msg.answer.length > 0 then (some (.ok msg), p.2) else childLoop cq name rest p.2
      | .err e => if e.isHard then (some (.err e), p.2) else childLoop cq name rest p.2
      | .fuelOut => (some .fuelOut, p.2)
      | .panicked s => (some (.panicked s), p.2)
    else childLoop cq name rest st

/-- The `msg.Ns` referral loop body: ensure the child zone node keyed by the
record's owner exists; for an NS record, if the child's map has no entry for
the record's owner name, add the NS target with an unknown endpoint (the
source checks `r.Hdr.Name` but inserts `r.Ns`). -/
def addNsRecord (rec : RR) (z : Zone) : Zone :=
  let children1 :=
    if alContains z.children rec.name then z.children
    else alSet z.children rec.name (Zone.mk [] [])
  match rec with
  | .ns hdrName target =>
    match alGet children1 hdrName with
    | some child =>
      let child1 :=
        if alContains child.nsA hdrName then child
        else Zone.mk (alSet child.nsA target none) child.children
      Zone.mk z.nsA (alSet children1 hdrName child1)
    | none => Zone.mk z.nsA children1
  | _ => Zone.mk z.nsA children1

/-- The `msg.Extra` glue loop body: for an A record, set the endpoint of
every child that already knows the hostname, through the factory. -/
def addGlueRecord (factory : String → String → String) (rec : RR) (z : Zone) : Zone :=
  match rec with
  | .a hdrName addr =>
    Zone.mk z.nsA (z.children.map (fun p =>
      if alContains p.2.nsA hdrName then
        (p.1, Zone.mk (alSet p.2.nsA hdrName (some (factory addr "53"))) p.2.children)
      else p))
  | _ => z

/-- The referral processing of `queryNameserver`: harvest NS records into
child zones, then glue addresses from the additional section. -/
def processReferral (factory : String → String → String) (path : List String)
    (msg : Msg) (st : RState) : RState :=
  let root1 := msg.ns.foldl (fun r rec => r.modifyAt path (addNsRecord rec)) st.root
  let root2 := msg.extra.foldl (fun r rec => r.modifyAt path (addGlueRecord factory rec)) root1
  { st with root := root2 }

/-- The counter bump before each transport call: the `uint8` increment of
`*queryCount`, and the ghost transport-call count. -/
def bumpCounter (st : RState) : RState :=
  { st with count := (st.count + 1) % 256, calls := st.calls + 1 }

/-- One trace entry append. -/
def addTrace (st : RState) (e : RecTraceLookup) : RState :=
  { st with trace := st.trace ++ [e] }

/-- The lookup trace entry `queryNameserver` writes. -/
def recTraceEntry (depth : Nat) (name : String) (rrtype : Nat) (host ns : String) :
    RecTraceLookup :=
  { depth := depth, domain := name, rrtype := rrtype, hostname := host, nameserver := ns }

/-- The two mutually recursive procedures of the walk, as one fuel-indexed
step function: `query` at a zone path, and `queryNameserver` against one
endpoint. -/
inductive RCall where
  | query (path : List String) (name : String) (rrtype : Nat) (depth : Nat)
  | queryNs (path : List String) (host : String) (ns : String) (name : String)
      (rrtype : Nat) (depth : Nat)

/-- One step of the delegation walk.  `query`: normalise the name, run loop
1 over known endpoints, then loop 2 over unknown ones, else fall through to
the soft `unable to find answer`.  `queryNs`: budget check (the counter
wraps as `uint8`), transport call, trace entry, answer / authoritative-empty
/ referral handling, then the child-zone loop. -/
def recStep (env : RecEnv) : Nat → RCall → RState → QRes × RState
  | 0, _, st => (.fuelOut, st)
  | fuel + 1, .query path name0 rrtype depth, st =>
    let name := trimTrailingDots name0 ++ "."
    match st.root.getAt path with
    | none => (.err (.soft "unable to find answer"), st)
    | some z =>
      let p1 := tryKnownLoop
        (fun host ns s => recStep env fuel (.queryNs path host ns name rrtype depth) s)
        z.nsA st
      match p1.1 with
      | some r => (r, p1.2)
      | none =>
        match p1.2.root.getAt path with
        | none => (.err (.soft "unable to find answer"), p1.2)
        | some z2 =>
          let p2 := tryUnknownLoop
            (fun hostname s => recStep env fuel (.query [] hostname 1 depth) s)
            (fun hostname ns s => recStep env fuel (.queryNs path hostname ns name rrtype depth) s)
            (fun hostname ns s =>
              let root1 := s.root.modifyAt path
                (fun z => Zone.mk (alSet z.nsA hostname (some ns)) z.children)
              { s with root := root1 })
            z2.nsA p1.2
          match p2.1 with
          | some r => (r, p2.2)
          | none => (.err (.soft "unable to find answer"), p2.2)
  | fuel + 1, .queryNs path host ns name rrtype depth, st =>
    if st.count > env.maxQueryCount then
      (.err (.hard (budgetErrText st.count)), st)
    else
      let st1 := bumpCounter st
      match env.oracle ns name rrtype with
      | .error e => (.err e, st1)
      | .ok msg =>
        let st2 := addTrace st1 (recTraceEntry depth name rrtype host ns)
        if msg.answer.length > 0 then (.ok msg, st2)
        else if msg.authoritative then (.err (.hard "record does not exist"), st2)
        else
          let st3 := processReferral env.factory path msg st2
          match st3.root.getAt path with
          | none => (.err (.soft "unable to find answer"), st3)
          | some z =>
            let p := childLoop
              (fun childName s =>
                recStep env fuel (.query (path ++ [childName]) name rrtype (depth + 1)) s)
              name z.children st3
            match p.1 with
            | some r => (r, p.2)
            | none => (.err (.soft "unable to find answer"), p.2)

/-- `newRootZoneResolver`: the root zone seeded with the thirteen IANA root
servers. -/
def newRootZoneResolver : Zone :=
  Zone.mk
    [("a.root-servers.net.", some (NewUdpNameserver "198.41.0.4" "53")),
     ("b.root-servers.net.", some (NewUdpNameserver "170.247.170.2" "53")),
     ("c.root-servers.net.", some (NewUdpNameserver "192.33.4.12" "53")),
     ("d.root-servers.net.", some (NewUdpNameserver "199.7.91.13" "53")),
     ("e.root-servers.net.", some (NewUdpNameserver "192.203.230.10" "53")),
     ("f.root-servers.net.", some (NewUdpNameserver "192.5.5.241" "53")),
     ("g.root-servers.net.", some (NewUdpNameserver "192.112.36.4" "53")),
     ("h.root-servers.net.", some (NewUdpNameserver "198.97.190.53" "53")),
     ("i.root-servers.net.", some (NewUdpNameserver "192.36.148.17" "53")),
     ("j.root-servers.net.", some (NewUdpNameserver "192.58.128.30" "53")),
     ("k.root-servers.net.", some (NewUdpNameserver "193.0.14.129" "53")),
     ("l.root-servers.net.", some (NewUdpNameserver "199.7.83.42" "53")),
     ("m.root-servers.net.", some (NewUdpNameserver "202.12.27.33" "53"))]
    []

/-- The iterative client's configuration. -/
structure RecursiveNameserver where
  maxQueryCount : Nat
  EnableTrace : Bool
  deriving DecidableEq, Repr

/-- `NewRecursiveNameserver`: the default budget is 30. -/
def NewRecursiveNameserver : RecursiveNameserver :=
  { maxQueryCount := 30, EnableTrace := false }

/-- `RecursiveNameserver.Query`: a fresh counter initialised to 0 and the
walk started at the root. -/
def RecursiveNameserver.Query (rns : RecursiveNameserver)
    (oracle : String → String → Nat → Except RErr Msg)
    (factory : String → String → String) (fuel : Nat)
    (name : String) (rrtype : Nat) : QRes × RState :=
  recStep { oracle := oracle, maxQueryCount := rns.maxQueryCount, factory := factory }
    fuel (.query [] name rrtype 0)
    { root := newRootZoneResolver, count := 0, calls := 0, trace := [] }

end DnsLookup

namespace DnsLookup

/-- The budget invariant between an input and an output state of the walk:
the counter stays within `maxQueryCount + 1`, grows monotonically, and moves
in lock-step with the ghost transport-call counter. -/
def CountInv (maxQ : Nat) (st st' : RState) : Prop :=
  (st.count ≤ maxQ + 1 → st'.count ≤ maxQ + 1) ∧
  st.count ≤ st'.count ∧
  st'.calls + st.count = st.calls + st'.count

/-- The always-referral oracle of the budget counterexample: every reply
delegates `a.` to `h1.` with glue, so the walk descends for ever. -/
def referralMsgW : Msg :=
  { question := [], answer := [], ns := [.ns "a." "h1."], extra := [.a "h1." "9.9.9.9"]
    authoritative := false, authenticatedData := false, rcode := 0 }

/-- An authoritative reply with an empty answer section. -/
def authEmptyMsgW : Msg :=
  { question := [], answer := [], ns := [], extra := []
    authoritative := true, authenticatedData := false, rcode := 0 }

end DnsLookup

namespace DnsLookup

/-- The always-referral environment of the budget fixtures. -/
def envRW : RecEnv :=
  { oracle := fun _ _ _ => .ok referralMsgW, maxQueryCount := 30,
    factory := NewUdpNameserver }

/-- A state whose counter has already passed the default budget. -/
def stBusyW : RState :=
  { root := newRootZoneResolver, count := 31, calls := 31, trace := [] }

/-- The environment whose nameservers answer authoritatively with no
records. -/
def envAW : RecEnv :=
  { oracle := fun _ _ _ => .ok authEmptyMsgW, maxQueryCount := 30,
    factory := NewUdpNameserver }

/-- The fresh state of a top-level resolution. -/
def initRState : RState :=
  { root := newRootZoneResolver, count := 0, calls := 0, trace := [] }

end DnsLookup

-- ===== DEFINITIONS ABOVE / THEOREMS BELOW =====

namespace DnsLookup

/-! ### Lemmas about the signature-set partition -/

theorem addRR_eq (ss : SignatureSet) (rr : RR) :
    ss.addRR rr =
      (if rrMatchesSig ss.signature rr then
          { ss with records := ss.records ++ [rr] } else ss,
        rrMatchesSig ss.signature rr) := by
  simp only [SignatureSet.addRR, rrMatchesSig]
  split_ifs with h1 h2 h3 <;> simp_all

theorem offerToAll_spec (sigs : List SignatureSet) (rr : RR) :
    offerToAll sigs rr =
      (sigs.map (fun s =>
          if rrMatchesSig s.signature rr then
            { s with records := s.records ++ [rr] } else s),
        sigs.any (fun s => rrMatchesSig s.signature rr)) := by
  induction sigs with
  | nil => simp [offerToAll]
  | cons s rest ih => simp [offerToAll, ih, addRR_eq]

theorem assignAnswers_ok_characterisation (rrStr : RR → String) :
    ∀ (answers : List RR) (sigs sets : List SignatureSet),
      assignAnswers rrStr sigs answers = .ok sets →
      sets = sigs.map (fun s =>
        { s with
          records := s.records ++ answers.filter (fun rr => rrMatchesSig s.signature rr) }) := by
  intro answers
  induction answers with
  | nil =>
    intro sigs sets h
    simp only [assignAnswers] at h
    cases h
    symm
    rw [show (fun s : SignatureSet =>
        ({ s with
          records := s.records ++ List.filter (fun rr => rrMatchesSig s.signature rr) [] }))
        = id from funext fun s => by simp]
    exact List.map_id sigs
  | cons rr rest ih =>
    intro sigs sets h
    simp only [assignAnswers, offerToAll_spec] at h
    by_cases hm : sigs.any (fun s => rrMatchesSig s.signature rr)
    · simp only [hm, if_true] at h
      have hrec := ih _ _ h
      subst hrec
      simp only [List.map_map]
      apply List.map_congr_left
      intro s _
      by_cases hs : rrMatchesSig s.signature rr <;>
        simp [hs, Function.comp, List.filter_cons]
    · simp [hm] at h

theorem assignAnswers_ok_all_matched (rrStr : RR → String) :
    ∀ (answers : List RR) (sigs sets : List SignatureSet),
      assignAnswers rrStr sigs answers = .ok sets →
      ∀ rr ∈ answers, ∃ s ∈ sigs, rrMatchesSig s.signature rr := by
  intro answers
  induction answers with
  | nil => intro sigs sets _ rr hrr; cases hrr
  | cons hd rest ih =>
    intro sigs sets h rr hrr
    simp only [assignAnswers, offerToAll_spec] at h
    by_cases hm : sigs.any (fun s => rrMatchesSig s.signature hd)
    · rw [List.mem_cons] at hrr
      rcases hrr with rfl | hrr
      · rcases List.any_eq_true.mp hm with ⟨s, hs, hmatch⟩
        exact ⟨s, hs, hmatch⟩
      · simp only [hm, if_true] at h
        rcases ih _ _ h rr hrr with ⟨s, hs, hmatch⟩
        rcases List.mem_map.mp hs with ⟨s0, hs0, rfl⟩
        by_cases hs0m : rrMatchesSig s0.signature hd <;>
          simp only [hs0m, if_true, if_false] at hmatch ⊢ <;>
          exact ⟨s0, hs0, by simpa using hmatch⟩
    · simp [hm] at h

theorem assignAnswers_unmatched_error (rrStr : RR → String) :
    ∀ (answers : List RR) (sigs : List SignatureSet) (rr : RR),
      rr ∈ answers →
      (∀ s ∈ sigs, rrMatchesSig s.signature rr = false) →
      ∃ pre, assignAnswers rrStr sigs answers =
        .error (pre ++ "] was unable to be assigned to any RRSIG") := by
  intro answers
  induction answers with
  | nil => intro sigs rr hrr; cases hrr
  | cons hd rest ih =>
    intro sigs rr hrr hno
    simp only [assignAnswers, offerToAll_spec]
    by_cases hm : sigs.any (fun s => rrMatchesSig s.signature hd)
    · rw [List.mem_cons] at hrr
      rcases hrr with rfl | hrr
      · rcases List.any_eq_true.mp hm with ⟨s, hs, hmatch⟩
        rw [hno s hs] at hmatch
        simp at hmatch
      · simp only [hm, if_true]
        apply ih _ rr hrr
        intro s hs
        rcases List.mem_map.mp hs with ⟨s0, hs0, rfl⟩
        by_cases hs0m : rrMatchesSig s0.signature hd <;>
          simp [hs0m, hno s0 hs0]
    · exact ⟨"[" ++ rrStr hd, by simp [hm, unassignedErr]⟩

end DnsLookup

namespace DnsLookup

/-! ### String containment, for the "error containing ..." claims -/

theorem strAppendAssoc (a b c : String) : (a ++ b) ++ c = a ++ (b ++ c) := by
  apply String.ext
  simp [String.data_append]

theorem strAppendNil (a : String) : a ++ "" = a := by
  apply String.ext
  simp [String.data_append]

/-- `pat` occurs as a contiguous substring of `s`. -/
def containsText (s pat : String) : Prop := ∃ pre post, s = pre ++ pat ++ post

theorem containsText_of_concat (pre pat post : String) :
    containsText (pre ++ pat ++ post) pat := ⟨pre, post, rfl⟩

/-- C2: `newSignatureSets` builds one set per RRSIG record of the input, and a
non-RRSIG record is adopted by exactly the sets whose RRSIG matches its
(type-covered, signer-name suffix, label-count) triple.  No RRSIG at all
fails with an error containing "no RRSIG records found"; a non-RRSIG record
matching no set fails with an error containing "was unable to be assigned to
any RRSIG"; on success every non-RRSIG input record lies in at least one
returned set. -/
theorem c2_newSignatureSets_partition :
    (∀ rrStr rrset, rrsigsOf rrset = [] →
        newSignatureSets rrStr rrset = .error noRRSIGErr ∧
        containsText noRRSIGErr "no RRSIG records found") ∧
    (∀ (rrStr : RR → String) rrset rr, rr ∈ rrset → rr.isRRSIG = false →
        (∀ sig ∈ rrsigsOf rrset, rrMatchesSig sig rr = false) →
        rrsigsOf rrset ≠ [] →
        ∃ e, newSignatureSets rrStr rrset = .error e ∧
          containsText e "was unable to be assigned to any RRSIG") ∧
    (∀ rrStr rrset sets, newSignatureSets rrStr rrset = .ok sets →
        (sets = (rrsigsOf rrset).map (fun sig =>
          { key := none, signature := sig,
            records := (rrset.filter fun rr => ¬ rr.isRRSIG).filter
              fun rr => rrMatchesSig sig rr }) ∧
        ∀ rr ∈ rrset, rr.isRRSIG = false → ∃ s ∈ sets, rr ∈ s.records)) := by
  refine ⟨?_, ?_, ?_⟩
  · intro rrStr rrset hsig
    constructor
    · simp [newSignatureSets, hsig]
    · exact ⟨"", ". this might indicate that DNSSEC is not enabled for this domain, or that the nameserver used does not return RRSIG records", by rfl⟩
  · intro rrStr rrset rr hmem hnotsig hno hne
    have hmem' : rr ∈ rrset.filter (fun rr => ¬ rr.isRRSIG) := by
      rw [List.mem_filter]
      exact ⟨hmem, by simp [hnotsig]⟩
    have hlen : ((rrsigsOf rrset).map (fun s =>
        ({ key := none, signature := s, records := [] } : SignatureSet))).length ≠ 0 := by
      simpa using hne
    have hside : ∀ s ∈ (rrsigsOf rrset).map (fun s =>
        ({ key := none, signature := s, records := [] } : SignatureSet)),
        rrMatchesSig s.signature rr = false := by
      intro s hs
      rcases List.mem_map.mp hs with ⟨sig, hsigmem, rfl⟩
      exact hno sig hsigmem
    rcases assignAnswers_unmatched_error rrStr (rrset.filter (fun rr => ¬ rr.isRRSIG))
        ((rrsigsOf rrset).map (fun s =>
          ({ key := none, signature := s, records := [] } : SignatureSet)))
        rr hmem' hside with ⟨pre, hpre⟩
    refine ⟨pre ++ "] was unable to be assigned to any RRSIG", ?_, ?_⟩
    · simp only [newSignatureSets, if_neg hlen]
      exact hpre
    · refine ⟨pre ++ "] ", "", ?_⟩
      rw [strAppendNil, strAppendAssoc]
      congr 1
  · intro rrStr rrset sets hok
    simp only [newSignatureSets] at hok
    by_cases hlen : ((rrsigsOf rrset).map (fun s =>
        ({ key := none, signature := s, records := [] } : SignatureSet))).length = 0
    · simp [hlen] at hok
    · simp only [if_neg hlen] at hok
      have hchar := assignAnswers_ok_characterisation rrStr _ _ _ hok
      have hmatched := assignAnswers_ok_all_matched rrStr _ _ _ hok
      constructor
      · rw [hchar, List.map_map]
        apply List.map_congr_left
        intro sig _
        simp
      · intro rr hmem hnotsig
        have hmem' : rr ∈ rrset.filter (fun rr => ¬ rr.isRRSIG) := by
          rw [List.mem_filter]
          exact ⟨hmem, by simp [hnotsig]⟩
        rcases hmatched rr hmem' with ⟨s, hs, hmatch⟩
        subst hchar
        refine ⟨{ s with
          records := s.records ++ (rrset.filter fun rr => ¬ rr.isRRSIG).filter
            (fun rr => rrMatchesSig s.signature rr) }, ?_, ?_⟩
        · exact List.mem_map.mpr ⟨s, hs, rfl⟩
        · simp only [List.mem_append]
          right
          rw [List.mem_filter]
          exact ⟨hmem', hmatch⟩

end DnsLookup

namespace DnsLookup

/-- Witness for C2 at the concrete fixture. -/
theorem c2_witness : ∃ s ∈ setsW, aW ∈ s.records :=
  (c2_newSignatureSets_partition.2.2 (fun _ => "rr") rrsetW setsW (by rfl)).2
    aW (by decide) (by decide)

end DnsLookup

namespace DnsLookup

/-! ### C9 and C10: nil handling and non-emptiness of the verified sets -/

/-- C9: authenticating a nil DNS message fails immediately with
`no DNS message provided`.  The result is this constant for every
environment — in particular for every injected query interface — and the
trace output is empty, so no query is performed and no trace entry is
written; totality of the embedding rules out a panic. -/
theorem c9_nil_message_rejected :
    ∀ env : AuthEnv, Authenticate env none = (.error "no DNS message provided", []) := by
  intro env
  rfl

theorem newSignatureSets_ok_length (rrStr : RR → String) (rrset : List RR)
    (sets : List SignatureSet) (h : newSignatureSets rrStr rrset = .ok sets) :
    sets.length = (rrsigsOf rrset).length ∧ 0 < sets.length := by
  simp only [newSignatureSets] at h
  by_cases hlen : ((rrsigsOf rrset).map (fun s =>
      ({ key := none, signature := s, records := [] } : SignatureSet))).length = 0
  · simp [hlen] at h
  · simp only [if_neg hlen] at h
    have := assignAnswers_ok_characterisation rrStr _ _ _ h
    subst this
    simp only [List.length_map] at hlen ⊢
    exact ⟨trivial, by omega⟩

theorem addKey_signature (ss : SignatureSet) (env : AuthEnv) (key : DNSKEY)
    (keyType : Nat) : (ss.addKey env key keyType).1.signature = ss.signature := by
  simp only [SignatureSet.addKey]
  split <;> rfl

theorem addFirstKey_signature (env : AuthEnv) (keyType : Nat) :
    ∀ (keys : List DNSKEY) (ss : SignatureSet),
      (addFirstKey env ss keyType keys).signature = ss.signature := by
  intro keys
  induction keys with
  | nil => intro ss; rfl
  | cons k rest ih =>
    intro ss
    simp only [addFirstKey]
    split
    · exact addKey_signature ss env k keyType
    · rw [ih]
      exact addKey_signature ss env k keyType

theorem processKss_ok_length (env : AuthEnv) (msg : Msg) (depth : Nat)
    (keys : List DNSKEY) :
    ∀ (l : List SignatureSet) (acc acc' : List VerifiedSet) (tr tr' : List TraceRec),
      processKss env msg depth keys l acc tr = (.ok acc', tr') →
      acc'.length = acc.length + l.length := by
  intro l
  induction l with
  | nil =>
    intro acc acc' tr tr' h
    simp only [processKss] at h
    cases h
    simp
  | cons kss rest ih =>
    intro acc acc' tr tr' h
    simp only [processKss] at h
    cases hk : (addFirstKey env kss DNSKEY_KSK keys).key with
    | none => simp [hk] at h
    | some k =>
      rw [hk] at h
      cases he : (addFirstKey env kss DNSKEY_KSK keys).verify env with
      | some e => simp [he] at h
      | none =>
        rw [he] at h
        have hrec := ih _ _ _ _ h
        simp only [List.length_append, List.length_cons, List.length_nil] at hrec ⊢
        omega

theorem processZss_ok_length_ge (env : AuthEnv) (msg : Msg) (depth : Nat) :
    ∀ (l : List SignatureSet) (acc acc' : List VerifiedSet) (tr tr' : List TraceRec),
      processZss env msg depth l acc tr = (.ok acc', tr') →
      acc.length + l.length ≤ acc'.length := by
  intro l
  induction l with
  | nil =>
    intro acc acc' tr tr' h
    simp only [processZss] at h
    cases h
    simp
  | cons zss rest ih =>
    intro acc acc' tr tr' h
    simp only [processZss] at h
    cases hq : env.query zss.signature.signerName TypeDNSKEY with
    | error e => simp [hq] at h
    | ok keysMsg =>
      rw [hq] at h
      dsimp only at h
      cases hk : (addFirstKey env zss DNSKEY_ZSK (extractDNSKEYs keysMsg.answer)).key with
      | none => simp [hk] at h
      | some k =>
        rw [hk] at h
        dsimp only at h
        cases he : (addFirstKey env zss DNSKEY_ZSK (extractDNSKEYs keysMsg.answer)).verify env with
        | some e => simp [he] at h
        | none =>
          rw [he] at h
          dsimp only at h
          cases hns : newSignatureSets env.rrStr keysMsg.answer with
          | error e => simp [hns] at h
          | ok keysSignatureSets =>
            rw [hns] at h
            dsimp only at h
            rw [addFirstKey_signature] at h
            rcases hpk : processKss env msg depth (extractDNSKEYs keysMsg.answer)
                keysSignatureSets acc
                (tr ++ [TraceRec.sigValidation depth "zsk" msg.qname
                  zss.signature.signerName none]) with ⟨pkRes, pkTr⟩
            rw [hpk] at h
            cases pkRes with
            | error e => simp at h
            | ok acc2 =>
              simp only at h
              have h1 := processKss_ok_length env msg depth _ _ _ _ _ _ hpk
              have h2 := ih _ _ _ _ h
              have h3 := (newSignatureSets_ok_length _ _ _ hns).2
              simp only [List.length_cons] at h2 ⊢
              omega

/-- C10: whenever `authenticateZoneSigningKey` returns without error, the
returned list of verified KSK signature sets is non-empty: the partition
yields at least one set and each processed set either aborts with an error
or appends a verified set.  Consequently the `keySignatureSets` list that
`Authenticate` iterates always has a head, and its final fallback error
`no signature sets found, unable to validate` — reachable only from an
empty list — is dead code. -/
theorem c10_verified_sets_nonempty :
    (∀ (env : AuthEnv) (msg : Msg) (depth : Nat) (sets : List VerifiedSet)
        (tr : List TraceRec),
      authenticateZoneSigningKey env msg depth = (.ok sets, tr) → sets ≠ []) ∧
    (∀ (env : AuthEnv) (msg : Msg) (depth : Nat) (sets : List VerifiedSet)
        (tr : List TraceRec),
      authenticateZoneSigningKey env msg depth = (.ok sets, tr) →
      ∃ kss rest, sets = kss :: rest) := by
  have main : ∀ (env : AuthEnv) (msg : Msg) (depth : Nat) (sets : List VerifiedSet)
      (tr : List TraceRec),
      authenticateZoneSigningKey env msg depth = (.ok sets, tr) → sets ≠ [] := by
    intro env msg depth sets tr h
    simp only [authenticateZoneSigningKey] at h
    cases hns : newSignatureSets env.rrStr msg.answer with
    | error e => simp [hns] at h
    | ok zoneSignatureSets =>
      rw [hns] at h
      have h1 := processZss_ok_length_ge env msg depth _ _ _ _ _ h
      have h2 := (newSignatureSets_ok_length _ _ _ hns).2
      intro hempty
      subst hempty
      simp only [List.length_nil] at h1
      omega
  exact ⟨main, fun env msg depth sets tr h => by
    cases sets with
    | nil => exact absurd rfl (main env msg depth [] tr h)
    | cons kss rest => exact ⟨kss, rest, rfl⟩⟩

/-- Witness for C10 at the concrete root-signed fixture. -/
theorem c10_witness : ([vkskW] : List VerifiedSet) ≠ [] :=
  c10_verified_sets_nonempty.1 envW msgW 0 [vkskW] azskTrW (by rfl)

end DnsLookup

namespace DnsLookup

/-! ### C4: the validity-window check precedes and excludes the crypto check -/

/-- C4: when an RRSIG's validity window excludes the current wall clock,
`SignatureSet.verify` fails with exactly
`signature outside of the allowed inception or expiration range` — for every
cryptographic verifier, so no cryptographic verification influences (or is
needed for) the outcome and no other failure kind can be produced — and the
ZSK step of the authenticator surfaces it wrapped as
`unable to verify <sig>; received <cause>`. -/
theorem c4_validity_window_strict :
    (∀ (env : AuthEnv) (ss : SignatureSet),
      validityPeriod ss.signature env.now = false →
      SignatureSet.verify env ss =
        some "signature outside of the allowed inception or expiration range") ∧
    (∀ (env : AuthEnv) (f : RRSIG → Option DNSKEY → List RR → Option String)
        (ss : SignatureSet),
      validityPeriod ss.signature env.now = false →
      SignatureSet.verify { env with cryptoVerify := f } ss =
        SignatureSet.verify env ss) ∧
    (∀ (env : AuthEnv) (msg : Msg) (depth : Nat) (zss : SignatureSet)
        (rest : List SignatureSet) (acc : List VerifiedSet) (tr : List TraceRec)
        (keysMsg : Msg) (k : DNSKEY),
      env.query zss.signature.signerName TypeDNSKEY = .ok keysMsg →
      (addFirstKey env zss DNSKEY_ZSK (extractDNSKEYs keysMsg.answer)).key = some k →
      validityPeriod zss.signature env.now = false →
      processZss env msg depth (zss :: rest) acc tr =
        (.error ("unable to verify " ++ env.sigStr zss.signature ++ "; received "
            ++ "signature outside of the allowed inception or expiration range"),
         tr ++ [TraceRec.sigValidation depth "zsk" msg.qname zss.signature.signerName
            (some "signature outside of the allowed inception or expiration range")])) := by
  have part1 : ∀ (env : AuthEnv) (ss : SignatureSet),
      validityPeriod ss.signature env.now = false →
      SignatureSet.verify env ss =
        some "signature outside of the allowed inception or expiration range" := by
    intro env ss hval
    simp [SignatureSet.verify, hval]
  refine ⟨part1, ?_, ?_⟩
  · intro env f ss hval
    rw [part1 env ss hval, part1 { env with cryptoVerify := f } ss hval]
  · intro env msg depth zss rest acc tr keysMsg k hq hk hval
    have hzs := addFirstKey_signature env DNSKEY_ZSK (extractDNSKEYs keysMsg.answer) zss
    have hv : SignatureSet.verify env
        (addFirstKey env zss DNSKEY_ZSK (extractDNSKEYs keysMsg.answer)) =
        some "signature outside of the allowed inception or expiration range" :=
      part1 env _ (by rw [hzs]; exact hval)
    simp only [processZss]
    rw [hq]
    dsimp only
    rw [hk]
    dsimp only
    rw [hv]
    dsimp only
    rw [hzs]

/-- Witness for C4 at the expired fixture. -/
theorem c4_witness :
    SignatureSet.verify envExpW zssExpW =
      some "signature outside of the allowed inception or expiration range" ∧
    processZss envExpW msgW 0 [zssExpW] [] [] =
      (.error ("unable to verify " ++ "sA" ++ "; received "
          ++ "signature outside of the allowed inception or expiration range"),
       [TraceRec.sigValidation 0 "zsk" "test." "."
          (some "signature outside of the allowed inception or expiration range")]) :=
  ⟨c4_validity_window_strict.1 envExpW zssExpW (by rfl),
   c4_validity_window_strict.2.2 envExpW msgW 0 zssExpW [] [] [] keysMsgW zskRootW
     (by rfl) (by rfl) (by rfl)⟩

end DnsLookup

namespace DnsLookup

/-! ### C5: the depth cap -/

theorem processKss_trace_dsChecks (env : AuthEnv) (msg : Msg) (depth : Nat)
    (keys : List DNSKEY) :
    ∀ (l : List SignatureSet) (acc : List VerifiedSet) (tr : List TraceRec),
      countDsChecks (processKss env msg depth keys l acc tr).2 = countDsChecks tr := by
  intro l
  induction l with
  | nil => intro acc tr; rfl
  | cons kss rest ih =>
    intro acc tr
    simp only [processKss]
    cases hk : (addFirstKey env kss DNSKEY_KSK keys).key with
    | none => rfl
    | some k =>
      dsimp only
      cases he : (addFirstKey env kss DNSKEY_KSK keys).verify env with
      | some e =>
        dsimp only
        simp [countDsChecks, List.countP_append, isDsCheck]
      | none =>
        dsimp only
        rw [ih]
        simp [countDsChecks, List.countP_append, isDsCheck]

theorem processZss_trace_dsChecks (env : AuthEnv) (msg : Msg) (depth : Nat) :
    ∀ (l : List SignatureSet) (acc : List VerifiedSet) (tr : List TraceRec),
      countDsChecks (processZss env msg depth l acc tr).2 = countDsChecks tr := by
  intro l
  induction l with
  | nil => intro acc tr; rfl
  | cons zss rest ih =>
    intro acc tr
    simp only [processZss]
    cases hq : env.query zss.signature.signerName TypeDNSKEY with
    | error e => rfl
    | ok keysMsg =>
      dsimp only
      cases hk : (addFirstKey env zss DNSKEY_ZSK (extractDNSKEYs keysMsg.answer)).key with
      | none => rfl
      | some k =>
        dsimp only
        cases he : (addFirstKey env zss DNSKEY_ZSK (extractDNSKEYs keysMsg.answer)).verify env with
        | some e =>
          dsimp only
          simp [countDsChecks, List.countP_append, isDsCheck]
        | none =>
          dsimp only
          cases hns : newSignatureSets env.rrStr keysMsg.answer with
          | error e =>
            dsimp only
            simp [countDsChecks, List.countP_append, isDsCheck]
          | ok keysSignatureSets =>
            dsimp only
            rcases hpk : processKss env msg depth (extractDNSKEYs keysMsg.answer)
                keysSignatureSets acc
                (tr ++ [TraceRec.sigValidation depth "zsk" msg.qname
                  (addFirstKey env zss DNSKEY_ZSK
                    (extractDNSKEYs keysMsg.answer)).signature.signerName none])
                with ⟨pkRes, pkTr⟩
            have hcount := processKss_trace_dsChecks env msg depth
              (extractDNSKEYs keysMsg.answer) keysSignatureSets acc
              (tr ++ [TraceRec.sigValidation depth "zsk" msg.qname
                (addFirstKey env zss DNSKEY_ZSK
                  (extractDNSKEYs keysMsg.answer)).signature.signerName none])
            rw [hpk] at hcount
            cases pkRes with
            | error e =>
              dsimp only
              rw [hcount]
              simp [countDsChecks, List.countP_append, isDsCheck]
            | ok acc2 =>
              dsimp only
              rw [ih, hcount]
              simp [countDsChecks, List.countP_append, isDsCheck]

theorem azsk_trace_dsChecks (env : AuthEnv) (msg : Msg) (depth : Nat) :
    countDsChecks (authenticateZoneSigningKey env msg depth).2 = 0 := by
  simp only [authenticateZoneSigningKey]
  cases hns : newSignatureSets env.rrStr msg.answer with
  | error e => rfl
  | ok zoneSignatureSets =>
    dsimp only
    rw [processZss_trace_dsChecks]
    rfl

theorem countDsChecks_append (a b : List TraceRec) :
    countDsChecks (a ++ b) = countDsChecks a + countDsChecks b :=
  List.countP_append _ _ _

theorem authGo_dsChecks_le (env : AuthEnv) :
    ∀ (gas : Nat) (msg : Msg) (depth : Nat),
      countDsChecks (authGo env gas msg depth).2 ≤ gas := by
  intro gas
  induction gas with
  | zero => intro msg depth; simp [authGo, countDsChecks]
  | succ gas ih =>
    intro msg depth
    simp only [authGo]
    rcases hA : authenticateZoneSigningKey env msg depth with ⟨res, tr⟩
    have htr : countDsChecks tr = 0 := by
      have := azsk_trace_dsChecks env msg depth
      rw [hA] at this
      exact this
    cases res with
    | error e => simpa using htr.le.trans (Nat.zero_le _)
    | ok keySignatureSets =>
      dsimp only
      cases keySignatureSets with
      | nil => simp [htr]
      | cons kss rest =>
        dsimp only
        by_cases hroot : kss.signature.signerName = "."
        · rw [if_pos hroot]
          cases hf : findAnchorMatch env kss.key env.rootAnchors with
          | some p =>
            dsimp only
            rw [countDsChecks_append, htr]
            have hone : countDsChecks [TraceRec.dsCheck depth msg.qname
                kss.signature.signerName (strToLower p.2.digest)] = 1 := rfl
            omega
          | none => simp [htr]
        · rw [if_neg hroot]
          cases hq : env.query kss.signature.signerName TypeDS with
          | error e => simp [htr]
          | ok dsMsg =>
            dsimp only
            cases hf : findAnchorMatch env kss.key (extractDSs dsMsg.answer) with
            | some p =>
              dsimp only
              have hrec := ih dsMsg (depth + 1)
              rw [countDsChecks_append, countDsChecks_append, htr]
              have hone : countDsChecks [TraceRec.dsCheck depth msg.qname
                  kss.signature.signerName (strToLower p.2.digest)] = 1 := rfl
              omega
            | none => simp [htr]

/-- C5: the authenticator's depth cap.  A call at depth at or past the
maximum fails immediately with `maximum authentication depth of N reached`
(N the configured maximum) and an empty trace; a recursive parent step runs
at exactly depth + 1; the number of recursive parent steps — counted
through the delegation-signer-check trace entries, of which each parent (or
root) step writes exactly one — is bounded by maximum − depth; the stub
constructor's default maximum is 10 and the iterative-resolver-backed
authenticator's is 3. -/
theorem c5_depth_cap :
    (∀ (env : AuthEnv) (msg : Msg) (depth : Nat),
      env.maxAuthenticationDepth ≤ depth →
      authenticateAux env msg depth =
        (.error ("maximum authentication depth of "
          ++ toString env.maxAuthenticationDepth ++ " reached"), [])) ∧
    (∀ (env : AuthEnv) (msg : Msg) (depth : Nat) (kss : VerifiedSet)
        (rest : List VerifiedSet) (tr : List TraceRec) (dsMsg : Msg)
        (p : DSRec × DSRec),
      depth < env.maxAuthenticationDepth →
      authenticateZoneSigningKey env msg depth = (.ok (kss :: rest), tr) →
      kss.signature.signerName ≠ "." →
      env.query kss.signature.signerName TypeDS = .ok dsMsg →
      findAnchorMatch env kss.key (extractDSs dsMsg.answer) = some p →
      authenticateAux env msg depth =
        ((authenticateAux env dsMsg (depth + 1)).1,
         tr ++ [TraceRec.dsCheck depth msg.qname kss.signature.signerName
            (strToLower p.2.digest)] ++ (authenticateAux env dsMsg (depth + 1)).2)) ∧
    (∀ (env : AuthEnv) (msg : Msg) (depth : Nat),
      countDsChecks (authenticateAux env msg depth).2 ≤
        env.maxAuthenticationDepth - depth) ∧
    (∀ (embedded : List DSRec) (ns : List String),
      (NewResolver embedded ns).maxAuthenticationDepth = 10) ∧
    iterativeAuthenticatorDefaultMaxAuthenticationDepth = 3 := by
  refine ⟨?_, ?_, ?_, ?_, rfl⟩
  · intro env msg depth h
    simp only [authenticateAux, Nat.sub_eq_zero_of_le h]
    rfl
  · intro env msg depth kss rest tr dsMsg p hlt hA hroot hq hf
    have hgas : env.maxAuthenticationDepth - depth =
        (env.maxAuthenticationDepth - (depth + 1)) + 1 := by omega
    simp only [authenticateAux, hgas]
    simp only [authGo]
    rw [hA]
    dsimp only
    rw [if_neg hroot, hq]
    dsimp only
    rw [hf]
  · intro env msg depth
    exact authGo_dsChecks_le env _ msg depth
  · intro embedded ns
    rfl

/-- Witness for C5: the cap fires at depth 10 on the root fixture, and the
`com.` fixture's parent step recurses at depth 1. -/
theorem c5_witness :
    authenticateAux envW msgW 10 =
      (.error "maximum authentication depth of 10 reached", []) ∧
    authenticateAux envPW msg2W 0 =
      ((authenticateAux envPW dsMsg2W 1).1,
       azsk2TrW ++ [TraceRec.dsCheck 0 "x.com." "com." "abcdef"]
          ++ (authenticateAux envPW dsMsg2W 1).2) := by
  constructor
  · exact c5_depth_cap.1 envW msgW 10 (by decide)
  · have h := c5_depth_cap.2.1 envPW msg2W 0 vksk2W [] azsk2TrW dsMsg2W
      (dsComW, dsComW) (by decide) (by rfl) (by decide) (by rfl) (by rfl)
    exact h

end DnsLookup

namespace DnsLookup

/-! ### C1: trust-anchor grounding -/

theorem findAnchorMatch_some (env : AuthEnv) (k : DNSKEY) :
    ∀ (l : List DSRec) (answer keyDS : DSRec),
      findAnchorMatch env k l = some (answer, keyDS) →
      answer ∈ l ∧ keyDS = env.toDS k answer.digestType ∧ dsMatch answer keyDS = true := by
  intro l
  induction l with
  | nil => intro answer keyDS h; simp [findAnchorMatch] at h
  | cons d rest ih =>
    intro answer keyDS h
    simp only [findAnchorMatch] at h
    by_cases hm : dsMatch d (env.toDS k d.digestType) = true
    · rw [if_pos hm] at h
      rcases h with ⟨rfl, rfl⟩
      exact ⟨List.mem_cons_self _ _, rfl, hm⟩
    · rw [if_neg hm] at h
      rcases ih answer keyDS h with ⟨hmem, hds, hmt⟩
      exact ⟨List.mem_cons_of_mem _ hmem, hds, hmt⟩

theorem findAnchorMatch_none_of_all_false (env : AuthEnv) (k : DNSKEY) :
    ∀ (l : List DSRec),
      (∀ d ∈ l, dsMatch d (env.toDS k d.digestType) = false) →
      findAnchorMatch env k l = none := by
  intro l
  induction l with
  | nil => intro _; rfl
  | cons d rest ih =>
    intro h
    simp only [findAnchorMatch]
    rw [if_neg (by simp [h d (List.mem_cons_self _ _)])]
    exact ih (fun x hx => h x (List.mem_cons_of_mem _ hx))

theorem authGo_ok_chain (env : AuthEnv) :
    ∀ (gas : Nat) (msg : Msg) (depth : Nat),
      (authGo env gas msg depth).1 = .ok () → AuthChain env msg depth := by
  intro gas
  induction gas with
  | zero => intro msg depth h; simp [authGo] at h
  | succ gas ih =>
    intro msg depth h
    simp only [authGo] at h
    rcases hA : authenticateZoneSigningKey env msg depth with ⟨res, tr⟩
    rw [hA] at h
    cases res with
    | error e => simp at h
    | ok keySignatureSets =>
      dsimp only at h
      cases keySignatureSets with
      | nil => simp at h
      | cons kss rest =>
        dsimp only at h
        by_cases hroot : kss.signature.signerName = "."
        · rw [if_pos hroot] at h
          cases hf : findAnchorMatch env kss.key env.rootAnchors with
          | some p =>
            rcases p with ⟨answer, keyDS⟩
            rcases findAnchorMatch_some env kss.key _ _ _ hf with ⟨hmem, hds, hmt⟩
            exact AuthChain.root msg depth kss rest tr answer hA hroot hmem (by rw [← hds]; exact hmt)
          | none => rw [hf] at h; simp at h
        · rw [if_neg hroot] at h
          cases hq : env.query kss.signature.signerName TypeDS with
          | error e => rw [hq] at h; simp at h
          | ok dsMsg =>
            rw [hq] at h
            dsimp only at h
            cases hf : findAnchorMatch env kss.key (extractDSs dsMsg.answer) with
            | some p =>
              rw [hf] at h
              dsimp only at h
              rcases p with ⟨ds, keyDS⟩
              rcases findAnchorMatch_some env kss.key _ _ _ hf with ⟨hmem, hds, hmt⟩
              exact AuthChain.parent msg depth kss rest tr dsMsg ds hA hroot hq hmem
                (by rw [← hds]; exact hmt) (ih dsMsg (depth + 1) h)
            | none => rw [hf] at h; simp at h

/-- C1: if `Authenticate` succeeds on a message, a finite chain of verified
(ZSK, KSK) signature-set pairs exists from the message's zone up through
ancestor zones, terminating at a KSK whose DS — derived under the digest
algorithm of some configured root anchor — equals that anchor on key tag,
algorithm and case-insensitive hex digest (`AuthChain`); and at the root,
when no configured anchor matches the KSK's derived DS, authentication
fails with `unable to find a matching DS digest at the root`. -/
theorem c1_trust_anchor_grounding :
    (∀ (env : AuthEnv) (msg : Msg),
      (Authenticate env (some msg)).1 = .ok () → AuthChain env msg 0) ∧
    (∀ (env : AuthEnv) (msg : Msg) (depth : Nat) (kss : VerifiedSet)
        (rest : List VerifiedSet) (tr : List TraceRec),
      depth < env.maxAuthenticationDepth →
      authenticateZoneSigningKey env msg depth = (.ok (kss :: rest), tr) →
      kss.signature.signerName = "." →
      (∀ anchor ∈ env.rootAnchors,
        dsMatch anchor (env.toDS kss.key anchor.digestType) = false) →
      authenticateAux env msg depth =
        (.error "unable to find a matching DS digest at the root", tr)) := by
  constructor
  · intro env msg h
    exact authGo_ok_chain env _ msg 0 h
  · intro env msg depth kss rest tr hlt hA hroot hno
    obtain ⟨g, hg⟩ : ∃ g, env.maxAuthenticationDepth - depth = g + 1 :=
      ⟨env.maxAuthenticationDepth - depth - 1, by omega⟩
    simp only [authenticateAux, hg, authGo]
    rw [hA]
    dsimp only
    rw [if_pos hroot, findAnchorMatch_none_of_all_false env kss.key _ hno]

/-- Witness for C1: the root fixture authenticates and exhibits a chain;
with only the mismatching anchor configured, the root step fails with the
anchor-mismatch error. -/
theorem c1_witness :
    AuthChain envW msgW 0 ∧
    authenticateAux envBadW msgW 0 =
      (.error "unable to find a matching DS digest at the root", azskTrW) :=
  ⟨c1_trust_anchor_grounding.1 envW msgW (by rfl),
   c1_trust_anchor_grounding.2 envBadW msgW 0 vkskW [] azskTrW
     (by decide) (by rfl) (by rfl) (by decide)⟩

end DnsLookup

namespace DnsLookup

/-! ### C7: the shuffle mutates the stored list in place -/

theorem cons_set_get_perm [DecidableEq α] :
    ∀ (t : List α) (k : Nat) (hk : k < t.length) (a : α),
      ((t.get ⟨k, hk⟩) :: t.set k a).Perm (a :: t) := by
  intro t
  induction t with
  | nil => intro k hk a; cases hk
  | cons b t' ih =>
    intro k hk a
    cases k with
    | zero => exact List.Perm.swap _ _ _
    | succ k' =>
      have hk' : k' < t'.length := by simpa using hk
      show ((t'.get ⟨k', hk'⟩) :: b :: t'.set k' a).Perm (a :: b :: t')
      have p1 : ((t'.get ⟨k', hk'⟩) :: b :: t'.set k' a).Perm
          (b :: (t'.get ⟨k', hk'⟩) :: t'.set k' a) := List.Perm.swap b _ _
      have p3 : (b :: (t'.get ⟨k', hk'⟩) :: t'.set k' a).Perm (b :: a :: t') :=
        List.Perm.cons b (ih k' hk' a)
      have p4 : (b :: a :: t').Perm (a :: b :: t') := List.Perm.swap a b t'
      exact (p1.trans p3).trans p4

theorem set_set_perm [DecidableEq α] :
    ∀ (l : List α) (i j : Nat) (hi : i < l.length) (hj : j < l.length),
      ((l.set i (l.get ⟨j, hj⟩)).set j (l.get ⟨i, hi⟩)).Perm l := by
  intro l
  induction l with
  | nil => intro i j hi; cases hi
  | cons a t ih =>
    intro i j hi hj
    cases i with
    | zero =>
      cases j with
      | zero => simp
      | succ k =>
        have hk : k < t.length := by simpa using hj
        have : ((a :: t).set 0 ((a :: t).get ⟨k + 1, hj⟩)).set (k + 1) ((a :: t).get ⟨0, hi⟩)
            = (t.get ⟨k, hk⟩) :: t.set k a := rfl
        rw [this]
        exact cons_set_get_perm t k hk a
    | succ s =>
      cases j with
      | zero =>
        have hs : s < t.length := by simpa using hi
        have : ((a :: t).set (s + 1) ((a :: t).get ⟨0, hj⟩)).set 0 ((a :: t).get ⟨s + 1, hi⟩)
            = (t.get ⟨s, hs⟩) :: t.set s a := rfl
        rw [this]
        exact cons_set_get_perm t s hs a
      | succ k =>
        have hs : s < t.length := by simpa using hi
        have hk : k < t.length := by simpa using hj
        exact List.Perm.cons a (ih s k hs hk)

theorem swapIdx_perm [DecidableEq α] (l : List α) (i j : Nat) :
    (swapIdx l i j).Perm l := by
  simp only [swapIdx]
  cases ha : l[i]? with
  | none => exact List.Perm.refl l
  | some a =>
    cases hb : l[j]? with
    | none => exact List.Perm.refl l
    | some b =>
      have hi : i < l.length := by
        by_contra hc
        rw [List.getElem?_eq_none (by omega)] at ha
        cases ha
      have hj : j < l.length := by
        by_contra hc
        rw [List.getElem?_eq_none (by omega)] at hb
        cases hb
      have ha' : a = l.get ⟨i, hi⟩ := by
        have := List.getElem?_eq_getElem hi
        rw [ha] at this
        cases this
        rfl
      have hb' : b = l.get ⟨j, hj⟩ := by
        have := List.getElem?_eq_getElem hj
        rw [hb] at this
        cases this
        rfl
      subst ha' hb'
      exact set_set_perm l i j hi hj

theorem shuffleGo_perm [DecidableEq α] (jf : Nat → Nat) :
    ∀ (n : Nat) (l : List α), (shuffleGo jf l n).Perm l := by
  intro n
  induction n with
  | zero => intro l; exact List.Perm.refl l
  | succ i ih =>
    intro l
    exact (ih _).trans (swapIdx_perm l (i + 1) (jf (i + 1)))

theorem randShuffle_perm [DecidableEq α] (jf : Nat → Nat) (l : List α) :
    (randShuffle jf l).Perm l :=
  shuffleGo_perm jf (l.length - 1) l

/-- C7 (amended): the shuffle acts in place on the client's stored slice, so
after `Query` the stored nameserver list holds the same nameservers (a
permutation) but not necessarily in the same order; all other fields of the
client are unchanged. -/
theorem c7_query_frame :
    ∀ (d : Resolver) (jf : Nat → Nat)
      (nsQuery : String → String → Nat → Except String Msg) (env : AuthEnv)
      (name : String) (rrtype : Nat),
      ((d.Query jf nsQuery env name rrtype).2.2.nameservers).Perm d.nameservers ∧
      (d.Query jf nsQuery env name rrtype).2.2.RootDNSSECRecords = d.RootDNSSECRecords ∧
      (d.Query jf nsQuery env name rrtype).2.2.LocallyAuthenticateData = d.LocallyAuthenticateData ∧
      (d.Query jf nsQuery env name rrtype).2.2.RemotelyAuthenticateData = d.RemotelyAuthenticateData ∧
      (d.Query jf nsQuery env name rrtype).2.2.RandomNameserver = d.RandomNameserver ∧
      (d.Query jf nsQuery env name rrtype).2.2.maxAuthenticationDepth = d.maxAuthenticationDepth ∧
      (d.Query jf nsQuery env name rrtype).2.2.EnableTrace = d.EnableTrace := by
  intro d jf nsQuery env name rrtype
  have hstate : (d.Query jf nsQuery env name rrtype).2.2 = (d.getNameservers jf).2 := by
    simp only [Resolver.Query, Resolver.query]
    rcases hq : d.getNameservers jf with ⟨lst, d1⟩
    dsimp only
    by_cases hlen : lst.length < 1
    · rw [if_pos hlen]
    · rw [if_neg hlen]
      rcases htry : tryStubNameservers d nsQuery name rrtype lst with ⟨res, tr⟩
      cases res with
      | error e => simp
      | ok msg =>
        dsimp only
        by_cases hauth : d.LocallyAuthenticateData
        · rw [if_pos hauth]
          cases (Authenticate env (some msg)).1 <;> rfl
        · rw [if_neg hauth]
  have hgetns : ((d.getNameservers jf).2.nameservers).Perm d.nameservers ∧
      (d.getNameservers jf).2.RootDNSSECRecords = d.RootDNSSECRecords ∧
      (d.getNameservers jf).2.LocallyAuthenticateData = d.LocallyAuthenticateData ∧
      (d.getNameservers jf).2.RemotelyAuthenticateData = d.RemotelyAuthenticateData ∧
      (d.getNameservers jf).2.RandomNameserver = d.RandomNameserver ∧
      (d.getNameservers jf).2.maxAuthenticationDepth = d.maxAuthenticationDepth ∧
      (d.getNameservers jf).2.EnableTrace = d.EnableTrace := by
    simp only [Resolver.getNameservers]
    by_cases hc : d.RandomNameserver ∧ d.nameservers.length > 1
    · rw [if_pos hc]
      exact ⟨randShuffle_perm jf d.nameservers, rfl, rfl, rfl, rfl, rfl, rfl⟩
    · rw [if_neg hc]
      exact ⟨List.Perm.refl _, rfl, rfl, rfl, rfl, rfl, rfl⟩
  rw [hstate]
  exact hgetns

/-- C7 counterexample: with the default configuration, two nameservers and a
PRNG draw of 0, the stored list after `Query` is reversed — its order is not
unchanged as the claim states. -/
theorem c7_counterexample :
    (dW.Query (fun _ => 0) nsQueryW envW "x" 1).2.2.nameservers = ["ns2", "ns1"] ∧
    (dW.Query (fun _ => 0) nsQueryW envW "x" 1).2.2.nameservers ≠ dW.nameservers := by
  constructor
  · rfl
  · decide

end DnsLookup

namespace DnsLookup

/-! ### C8: the RCODE error text -/

/-- C8 (amended): a successful exchange whose reply's RCODE is not NOERROR
returns the reply together with the error `query error returned (rcode N)`
(the claim's text omits "returned"); a NOERROR reply returns no error. -/
theorem c8_rcode_error_text :
    ∀ (n : LookupNameserver) (exchange : Msg → String → Except String Msg)
      (name : String) (rrtype : Nat) (response : Msg),
      exchange (buildQueryMsg name rrtype) n.getConnectionString = .ok response →
      (response.rcode ≠ 0 →
        n.Query exchange name rrtype =
          (some response,
           some ("query error returned (rcode " ++ toString response.rcode ++ ")"))) ∧
      (response.rcode = 0 → n.Query exchange name rrtype = (some response, none)) := by
  intro n exchange name rrtype response hex
  constructor
  · intro hrc
    simp only [LookupNameserver.Query, hex]
    rw [if_pos hrc]
  · intro hrc
    simp only [LookupNameserver.Query, hex]
    rw [if_neg (by simp [hrc])]

/-- Witness for C8 at a NOERROR reply. -/
theorem c8_witness : nW.Query exW0 "a" 1 = (some adMsgW, none) :=
  (c8_rcode_error_text nW exW0 "a" 1 adMsgW rfl).2 rfl

/-- C8 counterexample: on a reply with RCODE 3 the error text is
`query error returned (rcode 3)`, not the claim's `query error (rcode 3)`. -/
theorem c8_counterexample :
    (nW.Query exW3 "a" 1).2 = some "query error returned (rcode 3)" ∧
    (nW.Query exW3 "a" 1).2 ≠ some "query error (rcode 3)" := by
  constructor
  · rfl
  · decide

end DnsLookup

namespace DnsLookup

/-! ### C3: the query budget -/

theorem countInv_refl (maxQ : Nat) (st : RState) : CountInv maxQ st st :=
  ⟨fun h => h, Nat.le_refl _, rfl⟩

theorem countInv_trans {maxQ : Nat} {s1 s2 s3 : RState}
    (h12 : CountInv maxQ s1 s2) (h23 : CountInv maxQ s2 s3) : CountInv maxQ s1 s3 :=
  ⟨fun h => h23.1 (h12.1 h), h12.2.1.trans h23.2.1, by
    have a := h12.2.2
    have b := h23.2.2
    omega⟩

theorem tryKnownLoop_countInv {maxQ : Nat}
    (qns : String → String → RState → QRes × RState)
    (hq : ∀ h n s, CountInv maxQ s (qns h n s).2) :
    ∀ (l : List (String × Option String)) (st : RState),
      CountInv maxQ st (tryKnownLoop qns l st).2 := by
  intro l
  induction l with
  | nil => intro st; exact countInv_refl maxQ st
  | cons e rest ih =>
    intro st
    rcases e with ⟨hostname, optNs⟩
    cases optNs with
    | none => exact ih st
    | some ns =>
      simp only [tryKnownLoop]
      rcases hp : qns hostname ns st with ⟨r, st'⟩
      have h1 : CountInv maxQ st st' := by
        have := hq hostname ns st
        rw [hp] at this
        exact this
      cases r with
      | ok msg =>
        dsimp only
        by_cases hlen : msg.answer.length > 0
        · rw [if_pos hlen]; exact h1
        · rw [if_neg hlen]; exact countInv_trans h1 (ih st')
      | err e =>
        dsimp only
        by_cases hh : e.isHard = true
        · rw [if_pos hh]; exact h1
        · rw [if_neg hh]; exact countInv_trans h1 (ih st')
      | fuelOut => exact h1
      | panicked s => exact h1

theorem tryUnknownLoop_countInv {maxQ : Nat}
    (rootQ : String → RState → QRes × RState)
    (qns : String → String → RState → QRes × RState)
    (setNs : String → String → RState → RState)
    (hr : ∀ h s, CountInv maxQ s (rootQ h s).2)
    (hq : ∀ h n s, CountInv maxQ s (qns h n s).2)
    (hs : ∀ h n s, (setNs h n s).count = s.count ∧ (setNs h n s).calls = s.calls) :
    ∀ (l : List (String × Option String)) (st : RState),
      CountInv maxQ st (tryUnknownLoop rootQ qns setNs l st).2 := by
  intro l
  induction l with
  | nil => intro st; exact countInv_refl maxQ st
  | cons e rest ih =>
    intro st
    rcases e with ⟨hostname, optNs⟩
    cases optNs with
    | some ns => exact ih st
    | none =>
      simp only [tryUnknownLoop]
      rcases hp : rootQ hostname st with ⟨r, st'⟩
      have h1 : CountInv maxQ st st' := by
        have := hr hostname st
        rw [hp] at this
        exact this
      cases r with
      | fuelOut => exact h1
      | panicked s => exact h1
      | err e =>
        dsimp only
        by_cases hh : e.isHard = true
        · rw [if_pos hh]; exact h1
        · rw [if_neg hh]; exact countInv_trans h1 (ih st')
      | ok msg =>
        dsimp only
        by_cases hlen : msg.answer.length = 0
        · rw [if_pos hlen]; exact countInv_trans h1 (ih st')
        · rw [if_neg hlen]
          cases hhead : msg.answer.head? with
          | none => exact h1
          | some rr =>
            cases rr with
            | a hn addr =>
              dsimp only
              have h2 : CountInv maxQ st'
                  (setNs hostname (NewUdpNameserver addr "53") st') := by
                rcases hs hostname (NewUdpNameserver addr "53") st' with ⟨hc, hl⟩
                exact ⟨by rw [hc]; exact fun h => h, by rw [hc], by rw [hc, hl]⟩
              rcases hq2 : qns hostname (NewUdpNameserver addr "53")
                  (setNs hostname (NewUdpNameserver addr "53") st') with ⟨r2, st2⟩
              have h3 : CountInv maxQ (setNs hostname (NewUdpNameserver addr "53") st') st2 := by
                have := hq hostname (NewUdpNameserver addr "53")
                  (setNs hostname (NewUdpNameserver addr "53") st')
                rw [hq2] at this
                exact this
              have h13 := countInv_trans h1 (countInv_trans h2 h3)
              cases r2 with
              | ok m2 =>
                dsimp only
                by_cases hl2 : m2.answer.length > 0
                · rw [if_pos hl2]; exact h13
                · rw [if_neg hl2]; exact countInv_trans h13 (ih st2)
              | err e2 =>
                dsimp only
                by_cases hh2 : e2.isHard = true
                · rw [if_pos hh2]; exact h13
                · rw [if_neg hh2]; exact countInv_trans h13 (ih st2)
              | fuelOut => exact h13
              | panicked s2 => exact h13
            | rrsig r => exact h1
            | dnskey k => exact h1
            | dsrec d => exact h1
            | ns hn t => exact h1
            | generic hn t b => exact h1

theorem childLoop_countInv {maxQ : Nat}
    (cq : String → RState → QRes × RState) (name : String)
    (hc : ∀ c s, CountInv maxQ s (cq c s).2) :
    ∀ (l : List (String × Zone)) (st : RState),
      CountInv maxQ st (childLoop cq name l st).2 := by
  intro l
  induction l with
  | nil => intro st; exact countInv_refl maxQ st
  | cons e rest ih =>
    intro st
    rcases e with ⟨childName, z⟩
    simp only [childLoop]
    by_cases hsuf : strEndsWith name childName = true
    · rw [if_pos hsuf]
      rcases hp : cq childName st with ⟨r, st'⟩
      have h1 : CountInv maxQ st st' := by
        have := hc childName st
        rw [hp] at this
        exact this
      cases r with
      | ok msg =>
        dsimp only
        by_cases hlen : msg.answer.length > 0
        · rw [if_pos hlen]; exact h1
        · rw [if_neg hlen]; exact countInv_trans h1 (ih st')
      | err e =>
        dsimp only
        by_cases hh : e.isHard = true
        · rw [if_pos hh]; exact h1
        · rw [if_neg hh]; exact countInv_trans h1 (ih st')
      | fuelOut => exact h1
      | panicked s => exact h1
    · rw [if_neg hsuf]
      exact ih st

theorem recStep_countInv (env : RecEnv) (h254 : env.maxQueryCount ≤ 254) :
    ∀ (fuel : Nat) (call : RCall) (st : RState),
      CountInv env.maxQueryCount st (recStep env fuel call st).2 := by
  intro fuel
  induction fuel with
  | zero => intro call st; exact countInv_refl _ st
  | succ fuel ih =>
    intro call st
    cases call with
    | query path name0 rrtype depth =>
      simp only [recStep]
      cases hz : st.root.getAt path with
      | none => exact countInv_refl _ st
      | some z =>
        dsimp only
        rcases hp1 : tryKnownLoop
            (fun host ns s =>
              recStep env fuel
                (.queryNs path host ns (trimTrailingDots name0 ++ ".") rrtype depth) s)
            z.nsA st with ⟨r1, st1⟩
        have h1 : CountInv env.maxQueryCount st st1 := by
          have := tryKnownLoop_countInv _
            (fun h n s => ih (.queryNs path h n (trimTrailingDots name0 ++ ".") rrtype depth) s)
            z.nsA st
          rw [hp1] at this
          exact this
        cases r1 with
        | some r => exact h1
        | none =>
          dsimp only
          cases hz2 : st1.root.getAt path with
          | none => exact h1
          | some z2 =>
            dsimp only
            rcases hp2 : tryUnknownLoop
                (fun hostname s => recStep env fuel (.query [] hostname 1 depth) s)
                (fun hostname ns s =>
                  recStep env fuel
                    (.queryNs path hostname ns (trimTrailingDots name0 ++ ".") rrtype depth) s)
                (fun hostname ns s =>
                  let root1 := s.root.modifyAt path
                    (fun z => Zone.mk (alSet z.nsA hostname (some ns)) z.children)
                  { s with root := root1 })
                z2.nsA st1 with ⟨r2, st2⟩
            have h2 : CountInv env.maxQueryCount st1 st2 := by
              have := tryUnknownLoop_countInv
                (fun hostname s => recStep env fuel (.query [] hostname 1 depth) s)
                (fun hostname ns s =>
                  recStep env fuel
                    (.queryNs path hostname ns (trimTrailingDots name0 ++ ".") rrtype depth) s)
                (fun hostname ns s =>
                  let root1 := s.root.modifyAt path
                    (fun z => Zone.mk (alSet z.nsA hostname (some ns)) z.children)
                  { s with root := root1 })
                (fun h s => ih (.query [] h 1 depth) s)
                (fun h n s =>
                  ih (.queryNs path h n (trimTrailingDots name0 ++ ".") rrtype depth) s)
                (fun _ _ _ => ⟨rfl, rfl⟩)
                z2.nsA st1
              rw [hp2] at this
              exact this
            cases r2 with
            | some r => exact countInv_trans h1 h2
            | none => exact countInv_trans h1 h2
    | queryNs path host ns name rrtype depth =>
      simp only [recStep]
      by_cases hb : st.count > env.maxQueryCount
      · rw [if_pos hb]
        exact countInv_refl _ st
      · rw [if_neg hb]
        have hmod : (st.count + 1) % 256 = st.count + 1 := by
          apply Nat.mod_eq_of_lt
          omega
        have hst1 : CountInv env.maxQueryCount st (bumpCounter st) := by
          refine ⟨?_, ?_, ?_⟩ <;> simp only [bumpCounter, hmod] <;> omega
        have hst2 : ∀ e, CountInv env.maxQueryCount (bumpCounter st)
            (addTrace (bumpCounter st) e) :=
          fun e => ⟨fun h => h, Nat.le_refl _, rfl⟩
        split
        next e ho => exact hst1
        next msg ho =>
          split
          next hlen => exact countInv_trans hst1 (hst2 _)
          next hlen =>
            split
            next hauth => exact countInv_trans hst1 (hst2 _)
            next hauth =>
              have hproc : CountInv env.maxQueryCount
                  (addTrace (bumpCounter st) (recTraceEntry depth name rrtype host ns))
                  (processReferral env.factory path msg
                    (addTrace (bumpCounter st) (recTraceEntry depth name rrtype host ns))) := by
                simp only [processReferral]
                exact ⟨fun h => h, Nat.le_refl _, rfl⟩
              split
              next hz => exact countInv_trans hst1 (countInv_trans (hst2 _) hproc)
              next z hz =>
                have hcl := childLoop_countInv
                  (fun childName s =>
                    recStep env fuel (.query (path ++ [childName]) name rrtype (depth + 1)) s)
                  name
                  (fun c s => ih (.query (path ++ [c]) name rrtype (depth + 1)) s)
                  z.children
                  (processReferral env.factory path msg
                    (addTrace (bumpCounter st) (recTraceEntry depth name rrtype host ns)))
                split
                next r hr =>
                  exact countInv_trans hst1 (countInv_trans (hst2 _) (countInv_trans hproc hcl))
                next hr =>
                  exact countInv_trans hst1 (countInv_trans (hst2 _) (countInv_trans hproc hcl))

end DnsLookup

namespace DnsLookup

/-- C3 (amended): the iterative resolver threads one counter, initialised to
0 at the top-level call and incremented on each outbound transport call
(`calls` moves in lock-step with it); the budget check refuses only when the
counter already exceeds `maxQueryCount`, so up to `maxQueryCount + 1`
transport calls occur; the refusal is a hard error whose text interpolates
the counter value — `max allowed query count of N reached. somthing has
likely gone wrong` with N = maxQueryCount + 1 in a from-scratch resolution —
not the budget itself; the default budget is 30. -/
theorem c3_query_budget :
    (∀ (env : RecEnv) (fuel : Nat) (path : List String) (host ns name : String)
        (rrtype depth : Nat) (st : RState),
      st.count > env.maxQueryCount →
      recStep env (fuel + 1) (.queryNs path host ns name rrtype depth) st =
        (.err (.hard (budgetErrText st.count)), st)) ∧
    (∀ (env : RecEnv), env.maxQueryCount ≤ 254 →
      ∀ (fuel : Nat) (call : RCall) (st : RState),
        CountInv env.maxQueryCount st (recStep env fuel call st).2) ∧
    (∀ (rns : RecursiveNameserver) (oracle : String → String → Nat → Except RErr Msg)
        (factory : String → String → String) (fuel : Nat) (name : String) (rrtype : Nat),
      rns.maxQueryCount ≤ 254 →
      (rns.Query oracle factory fuel name rrtype).2.calls ≤ rns.maxQueryCount + 1 ∧
      (rns.Query oracle factory fuel name rrtype).2.calls =
        (rns.Query oracle factory fuel name rrtype).2.count) ∧
    NewRecursiveNameserver.maxQueryCount = 30 := by
  refine ⟨?_, recStep_countInv, ?_, rfl⟩
  · intro env fuel path host ns name rrtype depth st hb
    simp only [recStep]
    rw [if_pos hb]
  · intro rns oracle factory fuel name rrtype h254
    have hinv := recStep_countInv
      { oracle := oracle, maxQueryCount := rns.maxQueryCount, factory := factory }
      h254 fuel (.query [] name rrtype 0) initRState
    rcases hinv with ⟨hbound, hmono, hbal⟩
    have h0 : initRState.count = 0 ∧ initRState.calls = 0 := ⟨rfl, rfl⟩
    constructor
    · have := hbound (by simp [initRState])
      simp only [RecursiveNameserver.Query]
      simp only [initRState] at hbal this ⊢
      omega
    · simp only [RecursiveNameserver.Query]
      simp only [initRState] at hbal
      omega

/-- Witness for C3: a call with the counter already at 31 against the
default budget of 30 refuses with the counter's value in the text, and the
from-scratch run makes at most 31 transport calls. -/
theorem c3_witness :
    recStep envRW 5 (.queryNs [] "h" "n" "a." 1 0) stBusyW =
      (.err (.hard (budgetErrText 31)), stBusyW) ∧
    (NewRecursiveNameserver.Query (fun _ _ _ => .ok referralMsgW) NewUdpNameserver
      200 "a" 1).2.calls ≤ 31 :=
  ⟨c3_query_budget.1 envRW 4 [] "h" "n" "a." 1 0 stBusyW (by decide),
   (c3_query_budget.2.2.1 NewRecursiveNameserver (fun _ _ _ => .ok referralMsgW)
     NewUdpNameserver 200 "a" 1 (by decide)).1⟩

set_option maxRecDepth 10000 in
/-- C3 counterexample: against the default budget of 30, an endlessly
delegating zone drives 31 transport calls — not at most 30 — and the hard
error names 31, not the budget 30, with a trailing sentence the claim
omits. -/
theorem c3_counterexample :
    (NewRecursiveNameserver.Query (fun _ _ _ => .ok referralMsgW) NewUdpNameserver
        200 "a" 1).1 =
      .err (.hard "max allowed query count of 31 reached. somthing has likely gone wrong") ∧
    (NewRecursiveNameserver.Query (fun _ _ _ => .ok referralMsgW) NewUdpNameserver
        200 "a" 1).2.calls = 31 := by
  constructor
  · rfl
  · rfl

end DnsLookup

namespace DnsLookup

/-! ### C6: authoritative empty answers and hard/soft propagation -/

/-- C6: a reply that is authoritative with an empty answer section makes
`queryNameserver` return the hard error `record does not exist` (after the
transport call and its trace entry, with no referral processing); a hard
error from a nameserver or child-zone attempt is returned immediately —
no further candidate is tried — while a soft error moves the loop to the
next candidate; and `query` returns whatever its nameserver loop
produced. -/
theorem c6_authoritative_empty_hard :
    (∀ (env : RecEnv) (fuel : Nat) (path : List String) (host ns name : String)
        (rrtype depth : Nat) (st : RState) (msg : Msg),
      st.count ≤ env.maxQueryCount →
      env.oracle ns name rrtype = .ok msg →
      msg.answer = [] →
      msg.authoritative = true →
      recStep env (fuel + 1) (.queryNs path host ns name rrtype depth) st =
        (.err (.hard "record does not exist"),
         addTrace (bumpCounter st) (recTraceEntry depth name rrtype host ns))) ∧
    (∀ (qns : String → String → RState → QRes × RState) (hostname ns : String)
        (rest : List (String × Option String)) (st st' : RState) (e : RErr),
      qns hostname ns st = (.err e, st') →
      (e.isHard = true →
        tryKnownLoop qns ((hostname, some ns) :: rest) st = (some (.err e), st')) ∧
      (e.isHard = false →
        tryKnownLoop qns ((hostname, some ns) :: rest) st = tryKnownLoop qns rest st')) ∧
    (∀ (cq : String → RState → QRes × RState) (name childName : String) (z : Zone)
        (rest : List (String × Zone)) (st st' : RState) (e : RErr),
      strEndsWith name childName = true →
      cq childName st = (.err e, st') →
      (e.isHard = true →
        childLoop cq name ((childName, z) :: rest) st = (some (.err e), st')) ∧
      (e.isHard = false →
        childLoop cq name ((childName, z) :: rest) st = childLoop cq name rest st')) ∧
    (∀ (env : RecEnv) (fuel : Nat) (path : List String) (name0 : String)
        (rrtype depth : Nat) (st st1 : RState) (z : Zone) (r : QRes),
      st.root.getAt path = some z →
      tryKnownLoop
        (fun host ns s =>
          recStep env fuel
            (.queryNs path host ns (trimTrailingDots name0 ++ ".") rrtype depth) s)
        z.nsA st = (some r, st1) →
      recStep env (fuel + 1) (.query path name0 rrtype depth) st = (r, st1)) := by
  refine ⟨?_, ?_, ?_, ?_⟩
  · intro env fuel path host ns name rrtype depth st msg hcount ho hans hauth
    simp only [recStep]
    rw [if_neg (by omega)]
    split
    next e heq => rw [ho] at heq; cases heq
    next msg2 heq =>
      rw [ho] at heq
      injection heq with h2
      subst h2
      rw [hans]
      simp only [List.length_nil, gt_iff_lt, Nat.lt_irrefl, if_false, hauth, if_true]
  · intro qns hostname ns rest st st' e hq
    constructor
    · intro hh
      simp only [tryKnownLoop, hq]
      rw [if_pos hh]
    · intro hh
      simp only [tryKnownLoop, hq]
      rw [if_neg (by simp [hh])]
  · intro cq name childName z rest st st' e hsuf hq
    constructor
    · intro hh
      simp only [childLoop, hsuf, if_true, hq]
      rw [if_pos hh]
    · intro hh
      simp only [childLoop, hsuf, if_true, hq]
      rw [if_neg (by simp [hh])]
  · intro env fuel path name0 rrtype depth st st1 z r hz htry
    simp only [recStep, hz]
    rw [htry]

/-- Witness for C6: against a nameserver answering authoritatively with no
records, the first transport call yields the hard `record does not exist`,
and the nameserver loop stops on it. -/
theorem c6_witness :
    recStep envAW 5 (.queryNs [] "a.root-servers.net." "udp://198.41.0.4:53" "a." 1 0)
        initRState =
      (.err (.hard "record does not exist"),
       addTrace (bumpCounter initRState) (recTraceEntry 0 "a." 1 "a.root-servers.net."
         "udp://198.41.0.4:53")) ∧
    tryKnownLoop (fun _ _ s => ((.err (.hard "record does not exist")), s))
        [("h1.", some "n1"), ("h2.", some "n2")] initRState =
      (some (.err (.hard "record does not exist")), initRState) :=
  ⟨(c6_authoritative_empty_hard.1 envAW 4 [] "a.root-servers.net."
      "udp://198.41.0.4:53" "a." 1 0 initRState authEmptyMsgW
      (by decide) (by rfl) (by rfl) (by rfl)),
   ((c6_authoritative_empty_hard.2.1 (fun _ _ s => ((.err (.hard "record does not exist")), s))
      "h1." "n1" [("h2.", some "n2")] initRState initRState
      (.hard "record does not exist") (by rfl)).1 (by rfl))⟩

end DnsLookup
